import Mathlib

/-!
# verysimple.vm : a shallow embedding of the two interpreters

The repository holds two variants of one stack-machine interpreter:

* `src/src/vsvm.c` (namespace `Full`): `struct vm`, handlers split into
  functions, `CALL`/`RET`/`LOAD` implemented, heap-allocated stack;
* `src/vsvm.c` (namespace `Flat`): `struct vm_state`, handlers inline in
  `execute`, `CALL`/`RET` only print, stack of 100 words.

Modelling conventions, the same for both variants.

* `int *instructions` and `int *stack` are C pointers which the code indexes
  with no range check.  Both are modelled as memories `Int → Int`, a cell for
  every index; the block sizes (`instructions_size`, `stack_size`, `100`) are
  not fields of the state, exactly as in the C structs.  A read or write at an
  index outside the block is undefined behaviour in C; the model reads or
  writes the cell with that index.  Theorems about all memories hold for every
  content of the cells outside the blocks.
* Values are C `int`s.  Results of `+`, `-`, `*` are wrapped to 32 bits in
  two's complement (`wrap_int`); the registers `program_counter`,
  `stack_pointer`, `frame_pointer` are kept as unbounded `Int`, their
  increments never leave the `int` range for blocks that fit in memory.
* A function that mutates `*state` and returns a value becomes a function
  returning the pair (value, new state).
* `log_debug`, `log_error`, `printf` only write text; they are left out of
  the handlers. What `print_stack` writes is kept as the list it walks
  through, and the integer arguments of the log line of each case of
  `execute` are given by `execute_log`.
* The opcode constants come from `instruction_set.h`, which is not among the
  sources: they are a parameter (a structure `instruction_set` in each namespace).
* `run` loops while the C condition holds; the model takes a `fuel` bound on
  the number of iterations and returns `none` only when the bound is reached
  with the loop condition still true.
-/

/-- Two's complement wrap of an integer to the 32-bit `int` range. -/
def wrap_int (x : Int) : Int := (x + 2147483648) % 4294967296 - 2147483648

/-- The range of a C `int`. -/
def fits_int (x : Int) : Prop := -2147483648 ≤ x ∧ x ≤ 2147483647

instance (x : Int) : Decidable (fits_int x) := by
  unfold fits_int; exact inferInstance

/-- A memory block holding the words of `l` from index 0 on; cells outside
the block read 0. -/
def of_words (l : List Int) : Int → Int :=
  fun i => if 0 ≤ i then l.getD i.toNat 0 else 0

/-- The memory `mem` holds the words of `l` at indices `0 .. l.length - 1`
(nothing is said about the other cells). -/
def loaded (mem : Int → Int) (l : List Int) : Prop :=
  ∀ i : Nat, i < l.length → mem (i : Int) = l.getD i 0

/-! ## The operator table (`include/math.h`) -/

/-- Modelled from the spec: `include/math.h` is not among the sources; the
spec lists its operators as pure integer functions, here `add`. -/
def iadd (a b : Int) : Int := wrap_int (a + b)

/-- Modelled from the spec: `include/math.h` is not among the sources; the
spec's `subtract`, left operand minus right operand. -/
def isub (a b : Int) : Int := wrap_int (a - b)

/-- Modelled from the spec: `include/math.h` is not among the sources; the
spec's `multiply`. -/
def imul (a b : Int) : Int := wrap_int (a * b)

/-- Modelled from the spec: `include/math.h` is not among the sources; the
spec's `less-than`, 1 for true and 0 for false. -/
def ilt (a b : Int) : Int := if a < b then 1 else 0

/-- Modelled from the spec: `include/math.h` is not among the sources; the
spec's `greater-than`, 1 for true and 0 for false. -/
def igt (a b : Int) : Int := if a > b then 1 else 0

/-- Modelled from the spec: `include/math.h` is not among the sources; the
spec's `equal`, 1 for true and 0 for false. -/
def ieq (a b : Int) : Int := if a = b then 1 else 0

/-- Modelled from the spec: `include/math.h` is not among the sources; the
spec's `not-equal`, 1 for true and 0 for false. -/
def ineq (a b : Int) : Int := if a ≠ b then 1 else 0

/-- Modelled from the spec: `include/math.h` is not among the sources; the
spec's `identity`. -/
def identity (a : Int) : Int := a

/-- Modelled from the spec: `include/math.h` is not among the sources; the
spec's `logical-negate`, 1 for a zero argument and 0 otherwise. -/
def negate_as_binary (a : Int) : Int := if a = 0 then 1 else 0

/-! ## `src/src/vsvm.c` -/

namespace Full

/-- The opcode constants `VERYSIMPLE_VM_*` of `include/instruction_set.h`,
which is not among the sources: their values are a parameter. -/
structure instruction_set where
  ICONST : Int
  IADD : Int
  ISUB : Int
  IMUL : Int
  ILT : Int
  IGT : Int
  IEQ : Int
  INEQ : Int
  BRT : Int
  BRF : Int
  CALL : Int
  RET : Int
  LOAD : Int
  PRINT : Int
  HALT : Int

/-- The case labels of the `switch` in `execute`, in source order. -/
def instruction_set.labels (isa : instruction_set) : List Int :=
  [isa.ICONST, isa.IADD, isa.ISUB, isa.IMUL, isa.ILT, isa.IGT, isa.IEQ, isa.INEQ,
   isa.BRT, isa.BRF, isa.CALL, isa.RET, isa.LOAD, isa.PRINT, isa.HALT]

/-- The case labels of a C `switch` are pairwise different (the file does not
compile otherwise). -/
def instruction_set.distinct (isa : instruction_set) : Prop := isa.labels.Nodup

instance (isa : instruction_set) : Decidable isa.distinct := by
  unfold instruction_set.distinct; exact inferInstance

/-- A sample numbering of the opcodes, used for concrete runs. -/
def sample_set : instruction_set :=
  { ICONST := 101, IADD := 102, ISUB := 103, IMUL := 104, ILT := 105, IGT := 106,
    IEQ := 107, INEQ := 108, BRT := 109, BRF := 110, CALL := 111, RET := 112,
    LOAD := 113, PRINT := 114, HALT := 115 }

/-- The C `struct vm`. -/
structure vm where
  instructions : Int → Int
  program_counter : Int
  stack : Int → Int
  stack_pointer : Int
  frame_pointer : Int
  is_running : Int

/-- The values `print_stack` walks through: `stack[0 .. stack_pointer]`. -/
def print_stack (state : vm) : List Int :=
  (List.range (state.stack_pointer + 1).toNat).map (fun i => state.stack (i : Int))

/-- `return state->stack[state->stack_pointer--];` -/
def pop (state : vm) : Int × vm :=
  (state.stack state.stack_pointer,
   { state with stack_pointer := state.stack_pointer - 1 })

/-- `return (state->stack[++state->stack_pointer] = value) == value;` -/
def push (state : vm) (value : Int) : Int × vm :=
  let sp := state.stack_pointer + 1
  (if value = value then 1 else 0,
   { state with
     stack_pointer := sp,
     stack := fun i => if i = sp then value else state.stack i })

/-- `return state->stack[state->stack_pointer];` -/
def peek (state : vm) : Int := state.stack state.stack_pointer

/-- The function `save_state_and_jump_to_fn`. -/
def save_state_and_jump_to_fn (state : vm) : vm :=
  let location := state.instructions state.program_counter
  let state := { state with program_counter := state.program_counter + 1 }
  let nargs := state.instructions state.program_counter
  let state := { state with program_counter := state.program_counter + 1 }
  let state := (push state nargs).2
  let state := (push state state.frame_pointer).2
  let state := (push state state.program_counter).2
  let state := { state with frame_pointer := state.stack_pointer }
  { state with program_counter := location }

/-- The function `return_from_fn_and_unwind_stack`. -/
def return_from_fn_and_unwind_stack (state : vm) : vm :=
  let function_return := (pop state).1
  let state := (pop state).2
  let state := { state with stack_pointer := state.frame_pointer }
  let state := { (pop state).2 with program_counter := (pop state).1 }
  let state := { (pop state).2 with frame_pointer := (pop state).1 }
  let nargs := (pop state).1
  let state := (pop state).2
  let state := { state with stack_pointer := state.stack_pointer - nargs }
  (push state function_return).2

/-- The function `perform_binary_op`: `a = pop; b = pop; push(op(a, b))`. -/
def perform_binary_op (state : vm) (op : Int → Int → Int) : vm :=
  let a := (pop state).1
  let state := (pop state).2
  let b := (pop state).1
  let state := (pop state).2
  (push state (op a b)).2

/-- The function `branch_on_condition`. -/
def branch_on_condition (state : vm) (fn : Int → Int) : vm :=
  let location := state.instructions state.program_counter
  let state := { state with program_counter := state.program_counter + 1 }
  let flag := (pop state).1
  let state := (pop state).2
  if fn flag ≠ 0 then { state with program_counter := location } else state

/-- The function `load_const_rel_to_frame`. -/
def load_const_rel_to_frame (state : vm) : vm :=
  let offset := state.instructions state.program_counter
  let state := { state with program_counter := state.program_counter + 1 }
  let val := state.stack (state.frame_pointer + offset)
  (push state val).2

/-- The function `load_const`. -/
def load_const (state : vm) : vm :=
  let val := state.instructions state.program_counter
  let state := { state with program_counter := state.program_counter + 1 }
  (push state val).2

/-- `return state->instructions[state->program_counter++];` -/
def fetch (state : vm) : Int × vm :=
  (state.instructions state.program_counter,
   { state with program_counter := state.program_counter + 1 })

/-- The function `decode`, the identity. -/
def decode (instruction : Int) : Int := instruction

/-- The function `execute`: the returned pair is (`ret_val`, state). The
`switch` is a chain of tests in the order of its case labels. -/
def execute (isa : instruction_set) (state : vm) (decoded_instruction : Int) : Int × vm :=
  if decoded_instruction = isa.ICONST then (1, load_const state)
  else if decoded_instruction = isa.IADD then (1, perform_binary_op state iadd)
  else if decoded_instruction = isa.ISUB then (1, perform_binary_op state isub)
  else if decoded_instruction = isa.IMUL then (1, perform_binary_op state imul)
  else if decoded_instruction = isa.ILT then (1, perform_binary_op state ilt)
  else if decoded_instruction = isa.IGT then (1, perform_binary_op state igt)
  else if decoded_instruction = isa.IEQ then (1, perform_binary_op state ieq)
  else if decoded_instruction = isa.INEQ then (1, perform_binary_op state ineq)
  else if decoded_instruction = isa.BRT then (1, branch_on_condition state identity)
  else if decoded_instruction = isa.BRF then (1, branch_on_condition state negate_as_binary)
  else if decoded_instruction = isa.CALL then (1, save_state_and_jump_to_fn state)
  else if decoded_instruction = isa.RET then (1, return_from_fn_and_unwind_stack state)
  else if decoded_instruction = isa.LOAD then (1, load_const_rel_to_frame state)
  else if decoded_instruction = isa.PRINT then (1, state)
  else if decoded_instruction = isa.HALT then (1, { state with is_running := 0 })
  else (0, state)

/-- The body of the `while` loop of `run`: fetch, decode, execute. The
returned pair is (`is_execution_successful`, state). -/
def step (isa : instruction_set) (state : vm) : Int × vm :=
  let instruction := (fetch state).1
  let state := (fetch state).2
  let decoded_instruction := decode instruction
  execute isa state decoded_instruction

/-- What `run` leaves when its loop exits: the number of iterations made, the
flag `is_execution_successful` and the state. -/
structure outcome where
  steps : Nat
  is_execution_successful : Int
  state : vm

/-- The condition of the `while` loop of `run`. -/
def loop_condition (instructions_size : Int) (is_execution_successful : Int) (state : vm) :
    Prop :=
  is_execution_successful ≠ 0 ∧ state.is_running ≠ 0 ∧
    state.program_counter < instructions_size

instance (n ok : Int) (state : vm) : Decidable (loop_condition n ok state) := by
  unfold loop_condition; exact inferInstance

/-- The `while` loop of `run`, with at most `fuel` iterations. -/
def run_loop (isa : instruction_set) (instructions_size : Int) :
    Nat → Int → vm → Option outcome
  | 0, is_execution_successful, state =>
    if loop_condition instructions_size is_execution_successful state then none
    else some ⟨0, is_execution_successful, state⟩
  | fuel + 1, is_execution_successful, state =>
    if loop_condition instructions_size is_execution_successful state then
      (run_loop isa instructions_size fuel (step isa state).1 (step isa state).2).map
        (fun r => { r with steps := r.steps + 1 })
    else some ⟨0, is_execution_successful, state⟩

/-- The initial state built by `run`; `stack` is the block `malloc` returned,
with whatever it holds. -/
def initial_state (instructions : Int → Int) (entry_point : Int) (stack : Int → Int) : vm :=
  { stack := stack, stack_pointer := -1, program_counter := entry_point,
    instructions := instructions, frame_pointer := -1, is_running := 1 }

/-- The function `run`, on the path where `malloc` returned a block (`stack`,
of `stack_size` words). -/
def run (isa : instruction_set) (fuel : Nat) (instructions : Int → Int)
    (instructions_size : Int) (entry_point : Int) (stack_size : Int) (stack : Int → Int) :
    Option outcome :=
  let _ := stack_size
  run_loop isa instructions_size fuel 1 (initial_state instructions entry_point stack)

end Full

/-! ## `src/vsvm.c` -/

namespace Flat

/-- The opcode constants `VERYSIMPLE_VM_*` of the `instruction_set.h` next to
`src/vsvm.c`, which is not among the sources: their values are a parameter. -/
structure instruction_set where
  ICONST : Int
  IADD : Int
  ISUB : Int
  IMUL : Int
  LT : Int
  GT : Int
  EQ : Int
  NEQ : Int
  BRT : Int
  BRF : Int
  CALL : Int
  RET : Int
  PRINT : Int
  HALT : Int

/-- The constants tested by the chain of `if`s in `execute`, in source order. -/
def instruction_set.labels (isa : instruction_set) : List Int :=
  [isa.ICONST, isa.IADD, isa.ISUB, isa.IMUL, isa.LT, isa.GT, isa.EQ, isa.NEQ,
   isa.BRT, isa.BRF, isa.CALL, isa.RET, isa.PRINT, isa.HALT]

/-- The opcode constants are pairwise different. -/
def instruction_set.distinct (isa : instruction_set) : Prop := isa.labels.Nodup

instance (isa : instruction_set) : Decidable isa.distinct := by
  unfold instruction_set.distinct; exact inferInstance

/-- A sample numbering of the opcodes, used for concrete runs. -/
def sample_set : instruction_set :=
  { ICONST := 101, IADD := 102, ISUB := 103, IMUL := 104, LT := 105, GT := 106,
    EQ := 107, NEQ := 108, BRT := 109, BRF := 110, CALL := 111, RET := 112,
    PRINT := 114, HALT := 115 }

/-- The C `struct vm_state`. -/
structure vm_state where
  instructions : Int → Int
  program_counter : Int
  stack : Int → Int
  stack_pointer : Int
  frame_pointer : Int
  is_running : Int

/-- The values `print_stack` walks through: `stack[0 .. stack_pointer]`. -/
def print_stack (state : vm_state) : List Int :=
  (List.range (state.stack_pointer + 1).toNat).map (fun i => state.stack (i : Int))

/-- `return state->instructions[state->program_counter++];` -/
def fetch (state : vm_state) : Int × vm_state :=
  (state.instructions state.program_counter,
   { state with program_counter := state.program_counter + 1 })

/-- The function `decode`, the identity. -/
def decode (instruction : Int) : Int := instruction

/-- `return state->stack[state->stack_pointer--];` -/
def pop (state : vm_state) : Int × vm_state :=
  (state.stack state.stack_pointer,
   { state with stack_pointer := state.stack_pointer - 1 })

/-- `return (state->stack[++state->stack_pointer] = value) == value;` -/
def push (state : vm_state) (value : Int) : Int × vm_state :=
  let sp := state.stack_pointer + 1
  (if value = value then 1 else 0,
   { state with
     stack_pointer := sp,
     stack := fun i => if i = sp then value else state.stack i })

/-- `return state->stack[state->stack_pointer];` -/
def peek (state : vm_state) : Int := state.stack state.stack_pointer

/-- The shape shared by the seven arithmetic and comparison branches of
`execute`: `b = pop; a = pop; push(a op b)`, with `f a b` for `a op b`. -/
def binary_branch (state : vm_state) (f : Int → Int → Int) : vm_state :=
  let b := (pop state).1
  let state := (pop state).2
  let a := (pop state).1
  let state := (pop state).2
  (push state (f a b)).2

/-- The shape shared by the `BRT` and `BRF` branches of `execute`; `taken`
is the C condition (`flag`, or `!flag`) as a test on the flag. -/
def branch_branch (state : vm_state) (taken : Int → Bool) : vm_state :=
  let location := state.instructions state.program_counter
  let state := { state with program_counter := state.program_counter + 1 }
  let flag := (pop state).1
  let state := (pop state).2
  if taken flag then { state with program_counter := location } else state

/-- The function `execute`: the returned pair is (`ret_val`, state). -/
def execute (isa : instruction_set) (state : vm_state) (decoded_instruction : Int) :
    Int × vm_state :=
  if decoded_instruction = isa.ICONST then
    let constant := state.instructions state.program_counter
    let state := { state with program_counter := state.program_counter + 1 }
    (1, (push state constant).2)
  else if decoded_instruction = isa.IADD then
    (1, binary_branch state (fun a b => wrap_int (a + b)))
  else if decoded_instruction = isa.ISUB then
    (1, binary_branch state (fun a b => wrap_int (a - b)))
  else if decoded_instruction = isa.IMUL then
    (1, binary_branch state (fun a b => wrap_int (a * b)))
  else if decoded_instruction = isa.LT then
    (1, binary_branch state (fun a b => if a < b then 1 else 0))
  else if decoded_instruction = isa.GT then
    (1, binary_branch state (fun a b => if a > b then 1 else 0))
  else if decoded_instruction = isa.EQ then
    (1, binary_branch state (fun a b => if a = b then 1 else 0))
  else if decoded_instruction = isa.NEQ then
    (1, binary_branch state (fun a b => if a ≠ b then 1 else 0))
  else if decoded_instruction = isa.BRT then
    (1, branch_branch state (fun flag => decide (flag ≠ 0)))
  else if decoded_instruction = isa.BRF then
    (1, branch_branch state (fun flag => decide (flag = 0)))
  else if decoded_instruction = isa.CALL then (1, state)
  else if decoded_instruction = isa.RET then (1, state)
  else if decoded_instruction = isa.PRINT then (1, state)
  else if decoded_instruction = isa.HALT then (1, { state with is_running := 0 })
  else (0, state)

/-- The body of the `while` loop of `run`: fetch, decode, execute. The
returned pair is (`is_execution_successful`, state). -/
def step (isa : instruction_set) (state : vm_state) : Int × vm_state :=
  let instruction := (fetch state).1
  let state := (fetch state).2
  let decoded_instruction := decode instruction
  execute isa state decoded_instruction

/-- What `run` leaves when its loop exits: the number of iterations made, the
flag `is_execution_successful` and the state. -/
structure outcome where
  steps : Nat
  is_execution_successful : Int
  state : vm_state

/-- The condition of the `while` loop of `run`. -/
def loop_condition (instructions_size : Int) (is_execution_successful : Int)
    (state : vm_state) : Prop :=
  is_execution_successful ≠ 0 ∧ state.is_running ≠ 0 ∧
    state.program_counter < instructions_size

instance (n ok : Int) (state : vm_state) : Decidable (loop_condition n ok state) := by
  unfold loop_condition; exact inferInstance

/-- The `while` loop of `run`, with at most `fuel` iterations. -/
def run_loop (isa : instruction_set) (instructions_size : Int) :
    Nat → Int → vm_state → Option outcome
  | 0, is_execution_successful, state =>
    if loop_condition instructions_size is_execution_successful state then none
    else some ⟨0, is_execution_successful, state⟩
  | fuel + 1, is_execution_successful, state =>
    if loop_condition instructions_size is_execution_successful state then
      (run_loop isa instructions_size fuel (step isa state).1 (step isa state).2).map
        (fun r => { r with steps := r.steps + 1 })
    else some ⟨0, is_execution_successful, state⟩

/-- The initial state built by `run`; `stack` is the local array
`int stack[100]`, with whatever it holds. -/
def initial_state (instructions : Int → Int) (entry_point : Int) (stack : Int → Int) :
    vm_state :=
  { stack := stack, stack_pointer := -1, program_counter := entry_point,
    instructions := instructions, frame_pointer := -1, is_running := 1 }

/-- The function `run`. -/
def run (isa : instruction_set) (fuel : Nat) (instructions : Int → Int)
    (instructions_size : Int) (entry_point : Int) (stack : Int → Int) : Option outcome :=
  run_loop isa instructions_size fuel 1 (initial_state instructions entry_point stack)

end Flat

/-! ## Sample inputs -/

namespace Full

/-- A caller about to execute `CALL 5 2` at word 0, with `[10, 20]` on the
stack; the callee at word 5 is a lone `RET`. -/
def sample_caller : vm :=
  { instructions := of_words [111, 5, 2, 115, 115, 112], program_counter := 0,
    stack := of_words [10, 20], stack_pointer := 1, frame_pointer := -1, is_running := 1 }

/-- The callee of `sample_caller` about to execute its `RET` with the result
30 on top of the frame `2, -1, 3`. -/
def sample_callee : vm :=
  { instructions := of_words [111, 5, 2, 115, 115, 112], program_counter := 5,
    stack := of_words [10, 20, 2, -1, 3, 30], stack_pointer := 5, frame_pointer := 4,
    is_running := 1 }

/-- The state `sample_caller` right after the fetch of its `CALL`. -/
def sample_fetched : vm := { sample_caller with program_counter := 1 }

end Full

namespace Full

/-- A state of `src/src/vsvm.c` with 5 pushed before 3 (3 on top). -/
def sample_operands : vm :=
  { instructions := of_words [], program_counter := 1,
    stack := of_words [5, 3], stack_pointer := 1, frame_pointer := -1, is_running := 1 }

/-- A state right after the fetch of a branch opcode at word 0 whose operand
is 7, with the flag `flag` alone on the stack. -/
def sample_branch (flag : Int) : vm :=
  { instructions := of_words [109, 7], program_counter := 1,
    stack := of_words [flag], stack_pointer := 0, frame_pointer := -1, is_running := 1 }

end Full

namespace Flat

/-- A state of `src/vsvm.c` with 5 pushed before 3 (3 on top). -/
def sample_operands : vm_state :=
  { instructions := of_words [], program_counter := 1,
    stack := of_words [5, 3], stack_pointer := 1, frame_pointer := -1, is_running := 1 }

/-- A state right after the fetch of a branch opcode at word 0 whose operand
is 7, with the flag `flag` alone on the stack. -/
def sample_branch (flag : Int) : vm_state :=
  { instructions := of_words [109, 7], program_counter := 1,
    stack := of_words [flag], stack_pointer := 0, frame_pointer := -1, is_running := 1 }

end Flat

namespace Full

/-- The words of `ICONST 5; ICONST 5; IEQ; BRT target; ICONST 0; HALT;
ICONST 1; HALT`; the second `ICONST` is the word of index 10. -/
def branch_words (isa : instruction_set) (target : Int) : List Int :=
  [isa.ICONST, 5, isa.ICONST, 5, isa.IEQ, isa.BRT, target, isa.ICONST, 0, isa.HALT,
   isa.ICONST, 1, isa.HALT]

/-- What is observed of an outcome: iterations, `is_execution_successful`,
`is_running`, `program_counter`, `stack_pointer` and the live stack. -/
def outcome.observe (r : outcome) : Nat × Int × Int × Int × Int × List Int :=
  (r.steps, r.is_execution_successful, r.state.is_running, r.state.program_counter,
   r.state.stack_pointer, print_stack r.state)

/-- A running state at word 0 of the stream `[7, HALT]`, 7 being no opcode of
`sample_set`. -/
def sample_unknown : vm :=
  { instructions := of_words [7, 115], program_counter := 0,
    stack := of_words [4], stack_pointer := 0, frame_pointer := -1, is_running := 1 }

/-- A running state that has executed the whole stream `[ICONST, 7]`. -/
def sample_off_end : vm :=
  { instructions := of_words [101, 7], program_counter := 2,
    stack := of_words [7], stack_pointer := 0, frame_pointer := -1, is_running := 1 }

/-- A state whose stack block of two words is full. -/
def sample_full_stack : vm :=
  { instructions := of_words [101, 9, 115], program_counter := 0,
    stack := of_words [1, 2], stack_pointer := 1, frame_pointer := -1, is_running := 1 }

/-- A state whose stack is empty. -/
def sample_empty_stack : vm :=
  { instructions := of_words [102, 115], program_counter := 0,
    stack := of_words [], stack_pointer := -1, frame_pointer := -1, is_running := 1 }

end Full

namespace Flat

/-- What is observed of an outcome: iterations, `is_execution_successful`,
`is_running`, `program_counter`, `stack_pointer` and the live stack. -/
def outcome.observe (r : outcome) : Nat × Int × Int × Int × Int × List Int :=
  (r.steps, r.is_execution_successful, r.state.is_running, r.state.program_counter,
   r.state.stack_pointer, print_stack r.state)

/-- A running state that has executed the whole stream `[ICONST, 7]`. -/
def sample_off_end : vm_state :=
  { instructions := of_words [101, 7], program_counter := 2,
    stack := of_words [7], stack_pointer := 0, frame_pointer := -1, is_running := 1 }

/-- A state whose stack is empty. -/
def sample_empty_stack : vm_state :=
  { instructions := of_words [102, 115], program_counter := 0,
    stack := of_words [], stack_pointer := -1, frame_pointer := -1, is_running := 1 }

end Flat

namespace Full

/-- A callee state right after the fetch of a `LOAD` at word 0 whose operand
is -3, in the frame `2, -1, 3` above the arguments `10, 20`. -/
def sample_load : vm :=
  { instructions := of_words [113, -3], program_counter := 1,
    stack := of_words [10, 20, 2, -1, 3], stack_pointer := 4, frame_pointer := 4,
    is_running := 1 }

end Full

namespace Full

/-- A running state at word 0 of `ICONST 9; HALT` with `[1, 2]` on the
stack. -/
def sample_iconst : vm :=
  { instructions := of_words [101, 9, 115], program_counter := 0,
    stack := of_words [1, 2], stack_pointer := 1, frame_pointer := -1, is_running := 1 }

end Full

namespace Full

/-- A running state at word 0 of `PRINT; HALT` with `[1, 2]` on the stack. -/
def sample_print : vm :=
  { instructions := of_words [114, 115], program_counter := 0,
    stack := of_words [1, 2], stack_pointer := 1, frame_pointer := -1, is_running := 1 }

end Full

namespace Flat

/-- A running state at word 0 of `PRINT; HALT` with `[1, 2]` on the stack. -/
def sample_print : vm_state :=
  { instructions := of_words [114, 115], program_counter := 0,
    stack := of_words [1, 2], stack_pointer := 1, frame_pointer := -1, is_running := 1 }

end Flat

namespace Full

/-- A running state at word 0 of `HALT; ICONST 5` with `[1, 2]` on the
stack. -/
def sample_halt : vm :=
  { instructions := of_words [115, 101, 5], program_counter := 0,
    stack := of_words [1, 2], stack_pointer := 1, frame_pointer := -1, is_running := 1 }

end Full

/-! ## The log lines, runs of pushes and pops, and the loop tops -/

namespace Full

/-- The integer arguments of the log call made by the case of `execute` that
is taken (`log_debug` in the handlers, `log_error` in the default case), the
two `print_stack` calls aside. For `PRINT` this is what the instruction
emits. -/
def execute_log (isa : instruction_set) (state : vm) (decoded_instruction : Int) : List Int :=
  let binary := [(pop state).1, (pop (pop state).2).1]
  let branch :=
    [(pop { state with program_counter := state.program_counter + 1 }).1,
     state.instructions state.program_counter]
  if decoded_instruction = isa.ICONST then [state.instructions state.program_counter]
  else if decoded_instruction = isa.IADD then binary
  else if decoded_instruction = isa.ISUB then binary
  else if decoded_instruction = isa.IMUL then binary
  else if decoded_instruction = isa.ILT then binary
  else if decoded_instruction = isa.IGT then binary
  else if decoded_instruction = isa.IEQ then binary
  else if decoded_instruction = isa.INEQ then binary
  else if decoded_instruction = isa.BRT then branch
  else if decoded_instruction = isa.BRF then branch
  else if decoded_instruction = isa.CALL then
    [state.instructions state.program_counter,
     state.instructions (state.program_counter + 1)]
  else if decoded_instruction = isa.RET then []
  else if decoded_instruction = isa.LOAD then
    [state.instructions state.program_counter,
     state.stack (state.frame_pointer + state.instructions state.program_counter)]
  else if decoded_instruction = isa.PRINT then [peek state]
  else if decoded_instruction = isa.HALT then []
  else [decoded_instruction]

/-- The state after pushing the values of `values` one after the other, the
head first. -/
def push_all (state : vm) (values : List Int) : vm :=
  values.foldl (fun s v => (push s v).2) state

/-- The values returned by `k` calls of `pop` in a row, first call first, and
the state they leave. -/
def pop_n : Nat → vm → List Int × vm
  | 0, state => ([], state)
  | k + 1, state => ((pop state).1 :: (pop_n k (pop state).2).1, (pop_n k (pop state).2).2)

/-- The pair (`is_execution_successful`, state) at the `n`-th evaluation of
the loop condition of `run`, counted from 0; once the loop has exited, the pair
it exited with. -/
def loop_top (isa : instruction_set) (instructions_size : Int) : Nat → Int → vm → Int × vm
  | 0, is_execution_successful, state => (is_execution_successful, state)
  | n + 1, is_execution_successful, state =>
    if loop_condition instructions_size is_execution_successful state then
      loop_top isa instructions_size n (step isa state).1 (step isa state).2
    else (is_execution_successful, state)

/-- The word fetched at the `n`-th loop top, when the loop goes on there, is
none of `BRT`, `BRF`, `CALL`, `RET`. -/
def straight_at (isa : instruction_set) (instructions_size : Int) (ok : Int) (state : vm)
    (n : Nat) : Prop :=
  loop_condition instructions_size (loop_top isa instructions_size n ok state).1
      (loop_top isa instructions_size n ok state).2 →
    (loop_top isa instructions_size n ok state).2.instructions
      (loop_top isa instructions_size n ok state).2.program_counter ∉
      [isa.BRT, isa.BRF, isa.CALL, isa.RET]

instance (isa : instruction_set) (size ok : Int) (state : vm) (n : Nat) :
    Decidable (straight_at isa size ok state n) := by
  unfold straight_at; exact inferInstance

/-- Every destination the iteration at the `n`-th loop top may load into
`program_counter`, when the loop goes on there, lies in
`0 .. instructions_size`: the operand of a fetched `BRT` or `BRF`, the target
operand of a fetched `CALL`, and the return address `stack[frame_pointer]`
that a fetched `RET` pops. -/
def guarded_at (isa : instruction_set) (instructions_size : Int) (ok : Int) (state : vm)
    (n : Nat) : Prop :=
  loop_condition instructions_size (loop_top isa instructions_size n ok state).1
      (loop_top isa instructions_size n ok state).2 →
    ((loop_top isa instructions_size n ok state).2.instructions
      (loop_top isa instructions_size n ok state).2.program_counter ∈
        [isa.BRT, isa.BRF, isa.CALL] →
      0 ≤ (loop_top isa instructions_size n ok state).2.instructions
          ((loop_top isa instructions_size n ok state).2.program_counter + 1) ∧
      (loop_top isa instructions_size n ok state).2.instructions
          ((loop_top isa instructions_size n ok state).2.program_counter + 1) ≤
        instructions_size) ∧
    ((loop_top isa instructions_size n ok state).2.instructions
      (loop_top isa instructions_size n ok state).2.program_counter = isa.RET →
      0 ≤ (loop_top isa instructions_size n ok state).2.stack
          (loop_top isa instructions_size n ok state).2.frame_pointer ∧
      (loop_top isa instructions_size n ok state).2.stack
          (loop_top isa instructions_size n ok state).2.frame_pointer ≤
        instructions_size)

instance (isa : instruction_set) (size ok : Int) (state : vm) (n : Nat) :
    Decidable (guarded_at isa size ok state n) := by
  unfold guarded_at; exact inferInstance

/-- The word fetched at the `n`-th loop top, when the loop goes on there and
the word is one of the opcodes with an operand word `ICONST`, `LOAD`, `BRT`,
`BRF`, is not the last word of the stream. -/
def operand_inside_at (isa : instruction_set) (instructions_size : Int) (ok : Int)
    (state : vm) (n : Nat) : Prop :=
  loop_condition instructions_size (loop_top isa instructions_size n ok state).1
      (loop_top isa instructions_size n ok state).2 →
    (loop_top isa instructions_size n ok state).2.instructions
      (loop_top isa instructions_size n ok state).2.program_counter ∈
      [isa.ICONST, isa.LOAD, isa.BRT, isa.BRF] →
    (loop_top isa instructions_size n ok state).2.program_counter + 1 < instructions_size

instance (isa : instruction_set) (size ok : Int) (state : vm) (n : Nat) :
    Decidable (operand_inside_at isa size ok state n) := by
  unfold operand_inside_at; exact inferInstance

end Full

namespace Flat

/-- The integer arguments of the `printf` call made by the branch of
`execute` that is taken, the two `print_stack` calls aside. For `PRINT` this
is what the instruction emits. -/
def execute_log (isa : instruction_set) (state : vm_state) (decoded_instruction : Int) :
    List Int :=
  let binary := [(pop (pop state).2).1, (pop state).1]
  let branch :=
    [(pop { state with program_counter := state.program_counter + 1 }).1,
     state.instructions state.program_counter]
  if decoded_instruction = isa.ICONST then [state.instructions state.program_counter]
  else if decoded_instruction = isa.IADD then binary
  else if decoded_instruction = isa.ISUB then binary
  else if decoded_instruction = isa.IMUL then binary
  else if decoded_instruction = isa.LT then binary
  else if decoded_instruction = isa.GT then binary
  else if decoded_instruction = isa.EQ then binary
  else if decoded_instruction = isa.NEQ then binary
  else if decoded_instruction = isa.BRT then branch
  else if decoded_instruction = isa.BRF then branch
  else if decoded_instruction = isa.CALL then []
  else if decoded_instruction = isa.RET then []
  else if decoded_instruction = isa.PRINT then [peek state]
  else if decoded_instruction = isa.HALT then []
  else [decoded_instruction]

/-- The state after pushing the values of `values` one after the other, the
head first. -/
def push_all (state : vm_state) (values : List Int) : vm_state :=
  values.foldl (fun s v => (push s v).2) state

/-- The values returned by `k` calls of `pop` in a row, first call first, and
the state they leave. -/
def pop_n : Nat → vm_state → List Int × vm_state
  | 0, state => ([], state)
  | k + 1, state => ((pop state).1 :: (pop_n k (pop state).2).1, (pop_n k (pop state).2).2)

end Flat

namespace Full

/-- A caller that has pushed the arguments 10 and 20 on an empty stack and is
about to execute `CALL 3 2` at word 0; the callee at word 3 starts with a
`LOAD` whose operand is `offset`. -/
def sample_call_args (offset : Int) : vm :=
  { push_all (initial_state (of_words [111, 3, 2, 113, offset, 112]) 0 (fun _ => 0)) [10, 20]
    with program_counter := 0 }

end Full

namespace Full

/-- The words of `ICONST 7; ICONST 10; ICONST 20; CALL 10 2; HALT` followed,
from word 10 on, by a callee that pops six values with `BRT` (each jumping or
falling through to the next word), makes the call `CALL 26 -6`, whose callee
is the lone `RET` at word 26, and returns with the `RET` at word 25. -/
def overwriting_words : List Int :=
  [101, 7, 101, 10, 101, 20, 111, 10, 2, 115,
   109, 12, 109, 14, 109, 16, 109, 18, 109, 20, 109, 22,
   111, 26, -6, 112, 112]

/-- The state at the `n`-th loop top of the run of `overwriting_words` from
entry offset 0 on a zeroed stack block. -/
def overwriting_state (n : Nat) : vm :=
  (loop_top sample_set 27 n 1 (initial_state (of_words overwriting_words) 0 (fun _ => 0))).2

end Full
/-! ## Dispatch lemmas -/

namespace Full

/-- Two labels at different places of the list of opcodes are different. -/
theorem labels_ne (isa : instruction_set) (h : isa.distinct) (i j : Fin 15) (hij : i ≠ j) :
    isa.labels.get i ≠ isa.labels.get j :=
  fun e => hij ((List.Nodup.get_inj_iff h).1 e)

/-- Dispatch of `execute` on the opcode `ICONST`. -/
theorem execute_ICONST (isa : instruction_set) (state : vm) :
    execute isa state isa.ICONST =
      (1, load_const state) := by
  unfold execute
  simp only [if_false, if_true, eq_self_iff_true]

/-- Dispatch of `execute` on the opcode `IADD`. -/
theorem execute_IADD (isa : instruction_set) (h : isa.distinct) (state : vm) :
    execute isa state isa.IADD =
      (1, perform_binary_op state iadd) := by
  have n0 : ¬ (isa.IADD = isa.ICONST) := labels_ne isa h 1 0 (by decide)
  unfold execute
  simp only [n0, if_false, if_true, eq_self_iff_true]

/-- Dispatch of `execute` on the opcode `ISUB`. -/
theorem execute_ISUB (isa : instruction_set) (h : isa.distinct) (state : vm) :
    execute isa state isa.ISUB =
      (1, perform_binary_op state isub) := by
  have n0 : ¬ (isa.ISUB = isa.ICONST) := labels_ne isa h 2 0 (by decide)
  have n1 : ¬ (isa.ISUB = isa.IADD) := labels_ne isa h 2 1 (by decide)
  unfold execute
  simp only [n0, n1, if_false, if_true, eq_self_iff_true]

/-- Dispatch of `execute` on the opcode `IMUL`. -/
theorem execute_IMUL (isa : instruction_set) (h : isa.distinct) (state : vm) :
    execute isa state isa.IMUL =
      (1, perform_binary_op state imul) := by
  have n0 : ¬ (isa.IMUL = isa.ICONST) := labels_ne isa h 3 0 (by decide)
  have n1 : ¬ (isa.IMUL = isa.IADD) := labels_ne isa h 3 1 (by decide)
  have n2 : ¬ (isa.IMUL = isa.ISUB) := labels_ne isa h 3 2 (by decide)
  unfold execute
  simp only [n0, n1, n2, if_false, if_true, eq_self_iff_true]

/-- Dispatch of `execute` on the opcode `ILT`. -/
theorem execute_ILT (isa : instruction_set) (h : isa.distinct) (state : vm) :
    execute isa state isa.ILT =
      (1, perform_binary_op state ilt) := by
  have n0 : ¬ (isa.ILT = isa.ICONST) := labels_ne isa h 4 0 (by decide)
  have n1 : ¬ (isa.ILT = isa.IADD) := labels_ne isa h 4 1 (by decide)
  have n2 : ¬ (isa.ILT = isa.ISUB) := labels_ne isa h 4 2 (by decide)
  have n3 : ¬ (isa.ILT = isa.IMUL) := labels_ne isa h 4 3 (by decide)
  unfold execute
  simp only [n0, n1, n2, n3, if_false, if_true, eq_self_iff_true]

/-- Dispatch of `execute` on the opcode `IGT`. -/
theorem execute_IGT (isa : instruction_set) (h : isa.distinct) (state : vm) :
    execute isa state isa.IGT =
      (1, perform_binary_op state igt) := by
  have n0 : ¬ (isa.IGT = isa.ICONST) := labels_ne isa h 5 0 (by decide)
  have n1 : ¬ (isa.IGT = isa.IADD) := labels_ne isa h 5 1 (by decide)
  have n2 : ¬ (isa.IGT = isa.ISUB) := labels_ne isa h 5 2 (by decide)
  have n3 : ¬ (isa.IGT = isa.IMUL) := labels_ne isa h 5 3 (by decide)
  have n4 : ¬ (isa.IGT = isa.ILT) := labels_ne isa h 5 4 (by decide)
  unfold execute
  simp only [n0, n1, n2, n3, n4, if_false, if_true, eq_self_iff_true]

/-- Dispatch of `execute` on the opcode `IEQ`. -/
theorem execute_IEQ (isa : instruction_set) (h : isa.distinct) (state : vm) :
    execute isa state isa.IEQ =
      (1, perform_binary_op state ieq) := by
  have n0 : ¬ (isa.IEQ = isa.ICONST) := labels_ne isa h 6 0 (by decide)
  have n1 : ¬ (isa.IEQ = isa.IADD) := labels_ne isa h 6 1 (by decide)
  have n2 : ¬ (isa.IEQ = isa.ISUB) := labels_ne isa h 6 2 (by decide)
  have n3 : ¬ (isa.IEQ = isa.IMUL) := labels_ne isa h 6 3 (by decide)
  have n4 : ¬ (isa.IEQ = isa.ILT) := labels_ne isa h 6 4 (by decide)
  have n5 : ¬ (isa.IEQ = isa.IGT) := labels_ne isa h 6 5 (by decide)
  unfold execute
  simp only [n0, n1, n2, n3, n4, n5, if_false, if_true, eq_self_iff_true]

/-- Dispatch of `execute` on the opcode `INEQ`. -/
theorem execute_INEQ (isa : instruction_set) (h : isa.distinct) (state : vm) :
    execute isa state isa.INEQ =
      (1, perform_binary_op state ineq) := by
  have n0 : ¬ (isa.INEQ = isa.ICONST) := labels_ne isa h 7 0 (by decide)
  have n1 : ¬ (isa.INEQ = isa.IADD) := labels_ne isa h 7 1 (by decide)
  have n2 : ¬ (isa.INEQ = isa.ISUB) := labels_ne isa h 7 2 (by decide)
  have n3 : ¬ (isa.INEQ = isa.IMUL) := labels_ne isa h 7 3 (by decide)
  have n4 : ¬ (isa.INEQ = isa.ILT) := labels_ne isa h 7 4 (by decide)
  have n5 : ¬ (isa.INEQ = isa.IGT) := labels_ne isa h 7 5 (by decide)
  have n6 : ¬ (isa.INEQ = isa.IEQ) := labels_ne isa h 7 6 (by decide)
  unfold execute
  simp only [n0, n1, n2, n3, n4, n5, n6, if_false, if_true, eq_self_iff_true]

/-- Dispatch of `execute` on the opcode `BRT`. -/
theorem execute_BRT (isa : instruction_set) (h : isa.distinct) (state : vm) :
    execute isa state isa.BRT =
      (1, branch_on_condition state identity) := by
  have n0 : ¬ (isa.BRT = isa.ICONST) := labels_ne isa h 8 0 (by decide)
  have n1 : ¬ (isa.BRT = isa.IADD) := labels_ne isa h 8 1 (by decide)
  have n2 : ¬ (isa.BRT = isa.ISUB) := labels_ne isa h 8 2 (by decide)
  have n3 : ¬ (isa.BRT = isa.IMUL) := labels_ne isa h 8 3 (by decide)
  have n4 : ¬ (isa.BRT = isa.ILT) := labels_ne isa h 8 4 (by decide)
  have n5 : ¬ (isa.BRT = isa.IGT) := labels_ne isa h 8 5 (by decide)
  have n6 : ¬ (isa.BRT = isa.IEQ) := labels_ne isa h 8 6 (by decide)
  have n7 : ¬ (isa.BRT = isa.INEQ) := labels_ne isa h 8 7 (by decide)
  unfold execute
  simp only [n0, n1, n2, n3, n4, n5, n6, n7, if_false, if_true, eq_self_iff_true]

/-- Dispatch of `execute` on the opcode `BRF`. -/
theorem execute_BRF (isa : instruction_set) (h : isa.distinct) (state : vm) :
    execute isa state isa.BRF =
      (1, branch_on_condition state negate_as_binary) := by
  have n0 : ¬ (isa.BRF = isa.ICONST) := labels_ne isa h 9 0 (by decide)
  have n1 : ¬ (isa.BRF = isa.IADD) := labels_ne isa h 9 1 (by decide)
  have n2 : ¬ (isa.BRF = isa.ISUB) := labels_ne isa h 9 2 (by decide)
  have n3 : ¬ (isa.BRF = isa.IMUL) := labels_ne isa h 9 3 (by decide)
  have n4 : ¬ (isa.BRF = isa.ILT) := labels_ne isa h 9 4 (by decide)
  have n5 : ¬ (isa.BRF = isa.IGT) := labels_ne isa h 9 5 (by decide)
  have n6 : ¬ (isa.BRF = isa.IEQ) := labels_ne isa h 9 6 (by decide)
  have n7 : ¬ (isa.BRF = isa.INEQ) := labels_ne isa h 9 7 (by decide)
  have n8 : ¬ (isa.BRF = isa.BRT) := labels_ne isa h 9 8 (by decide)
  unfold execute
  simp only [n0, n1, n2, n3, n4, n5, n6, n7, n8, if_false, if_true, eq_self_iff_true]

/-- Dispatch of `execute` on the opcode `CALL`. -/
theorem execute_CALL (isa : instruction_set) (h : isa.distinct) (state : vm) :
    execute isa state isa.CALL =
      (1, save_state_and_jump_to_fn state) := by
  have n0 : ¬ (isa.CALL = isa.ICONST) := labels_ne isa h 10 0 (by decide)
  have n1 : ¬ (isa.CALL = isa.IADD) := labels_ne isa h 10 1 (by decide)
  have n2 : ¬ (isa.CALL = isa.ISUB) := labels_ne isa h 10 2 (by decide)
  have n3 : ¬ (isa.CALL = isa.IMUL) := labels_ne isa h 10 3 (by decide)
  have n4 : ¬ (isa.CALL = isa.ILT) := labels_ne isa h 10 4 (by decide)
  have n5 : ¬ (isa.CALL = isa.IGT) := labels_ne isa h 10 5 (by decide)
  have n6 : ¬ (isa.CALL = isa.IEQ) := labels_ne isa h 10 6 (by decide)
  have n7 : ¬ (isa.CALL = isa.INEQ) := labels_ne isa h 10 7 (by decide)
  have n8 : ¬ (isa.CALL = isa.BRT) := labels_ne isa h 10 8 (by decide)
  have n9 : ¬ (isa.CALL = isa.BRF) := labels_ne isa h 10 9 (by decide)
  unfold execute
  simp only [n0, n1, n2, n3, n4, n5, n6, n7, n8, n9, if_false, if_true, eq_self_iff_true]

/-- Dispatch of `execute` on the opcode `RET`. -/
theorem execute_RET (isa : instruction_set) (h : isa.distinct) (state : vm) :
    execute isa state isa.RET =
      (1, return_from_fn_and_unwind_stack state) := by
  have n0 : ¬ (isa.RET = isa.ICONST) := labels_ne isa h 11 0 (by decide)
  have n1 : ¬ (isa.RET = isa.IADD) := labels_ne isa h 11 1 (by decide)
  have n2 : ¬ (isa.RET = isa.ISUB) := labels_ne isa h 11 2 (by decide)
  have n3 : ¬ (isa.RET = isa.IMUL) := labels_ne isa h 11 3 (by decide)
  have n4 : ¬ (isa.RET = isa.ILT) := labels_ne isa h 11 4 (by decide)
  have n5 : ¬ (isa.RET = isa.IGT) := labels_ne isa h 11 5 (by decide)
  have n6 : ¬ (isa.RET = isa.IEQ) := labels_ne isa h 11 6 (by decide)
  have n7 : ¬ (isa.RET = isa.INEQ) := labels_ne isa h 11 7 (by decide)
  have n8 : ¬ (isa.RET = isa.BRT) := labels_ne isa h 11 8 (by decide)
  have n9 : ¬ (isa.RET = isa.BRF) := labels_ne isa h 11 9 (by decide)
  have n10 : ¬ (isa.RET = isa.CALL) := labels_ne isa h 11 10 (by decide)
  unfold execute
  simp only [n0, n1, n2, n3, n4, n5, n6, n7, n8, n9, n10, if_false, if_true, eq_self_iff_true]

/-- Dispatch of `execute` on the opcode `LOAD`. -/
theorem execute_LOAD (isa : instruction_set) (h : isa.distinct) (state : vm) :
    execute isa state isa.LOAD =
      (1, load_const_rel_to_frame state) := by
  have n0 : ¬ (isa.LOAD = isa.ICONST) := labels_ne isa h 12 0 (by decide)
  have n1 : ¬ (isa.LOAD = isa.IADD) := labels_ne isa h 12 1 (by decide)
  have n2 : ¬ (isa.LOAD = isa.ISUB) := labels_ne isa h 12 2 (by decide)
  have n3 : ¬ (isa.LOAD = isa.IMUL) := labels_ne isa h 12 3 (by decide)
  have n4 : ¬ (isa.LOAD = isa.ILT) := labels_ne isa h 12 4 (by decide)
  have n5 : ¬ (isa.LOAD = isa.IGT) := labels_ne isa h 12 5 (by decide)
  have n6 : ¬ (isa.LOAD = isa.IEQ) := labels_ne isa h 12 6 (by decide)
  have n7 : ¬ (isa.LOAD = isa.INEQ) := labels_ne isa h 12 7 (by decide)
  have n8 : ¬ (isa.LOAD = isa.BRT) := labels_ne isa h 12 8 (by decide)
  have n9 : ¬ (isa.LOAD = isa.BRF) := labels_ne isa h 12 9 (by decide)
  have n10 : ¬ (isa.LOAD = isa.CALL) := labels_ne isa h 12 10 (by decide)
  have n11 : ¬ (isa.LOAD = isa.RET) := labels_ne isa h 12 11 (by decide)
  unfold execute
  simp only [n0, n1, n2, n3, n4, n5, n6, n7, n8, n9, n10, n11, if_false, if_true, eq_self_iff_true]

/-- Dispatch of `execute` on the opcode `PRINT`. -/
theorem execute_PRINT (isa : instruction_set) (h : isa.distinct) (state : vm) :
    execute isa state isa.PRINT =
      (1, state) := by
  have n0 : ¬ (isa.PRINT = isa.ICONST) := labels_ne isa h 13 0 (by decide)
  have n1 : ¬ (isa.PRINT = isa.IADD) := labels_ne isa h 13 1 (by decide)
  have n2 : ¬ (isa.PRINT = isa.ISUB) := labels_ne isa h 13 2 (by decide)
  have n3 : ¬ (isa.PRINT = isa.IMUL) := labels_ne isa h 13 3 (by decide)
  have n4 : ¬ (isa.PRINT = isa.ILT) := labels_ne isa h 13 4 (by decide)
  have n5 : ¬ (isa.PRINT = isa.IGT) := labels_ne isa h 13 5 (by decide)
  have n6 : ¬ (isa.PRINT = isa.IEQ) := labels_ne isa h 13 6 (by decide)
  have n7 : ¬ (isa.PRINT = isa.INEQ) := labels_ne isa h 13 7 (by decide)
  have n8 : ¬ (isa.PRINT = isa.BRT) := labels_ne isa h 13 8 (by decide)
  have n9 : ¬ (isa.PRINT = isa.BRF) := labels_ne isa h 13 9 (by decide)
  have n10 : ¬ (isa.PRINT = isa.CALL) := labels_ne isa h 13 10 (by decide)
  have n11 : ¬ (isa.PRINT = isa.RET) := labels_ne isa h 13 11 (by decide)
  have n12 : ¬ (isa.PRINT = isa.LOAD) := labels_ne isa h 13 12 (by decide)
  unfold execute
  simp only [n0, n1, n2, n3, n4, n5, n6, n7, n8, n9, n10, n11, n12, if_false, if_true, eq_self_iff_true]

/-- Dispatch of `execute` on the opcode `HALT`. -/
theorem execute_HALT (isa : instruction_set) (h : isa.distinct) (state : vm) :
    execute isa state isa.HALT =
      (1, { state with is_running := 0 }) := by
  have n0 : ¬ (isa.HALT = isa.ICONST) := labels_ne isa h 14 0 (by decide)
  have n1 : ¬ (isa.HALT = isa.IADD) := labels_ne isa h 14 1 (by decide)
  have n2 : ¬ (isa.HALT = isa.ISUB) := labels_ne isa h 14 2 (by decide)
  have n3 : ¬ (isa.HALT = isa.IMUL) := labels_ne isa h 14 3 (by decide)
  have n4 : ¬ (isa.HALT = isa.ILT) := labels_ne isa h 14 4 (by decide)
  have n5 : ¬ (isa.HALT = isa.IGT) := labels_ne isa h 14 5 (by decide)
  have n6 : ¬ (isa.HALT = isa.IEQ) := labels_ne isa h 14 6 (by decide)
  have n7 : ¬ (isa.HALT = isa.INEQ) := labels_ne isa h 14 7 (by decide)
  have n8 : ¬ (isa.HALT = isa.BRT) := labels_ne isa h 14 8 (by decide)
  have n9 : ¬ (isa.HALT = isa.BRF) := labels_ne isa h 14 9 (by decide)
  have n10 : ¬ (isa.HALT = isa.CALL) := labels_ne isa h 14 10 (by decide)
  have n11 : ¬ (isa.HALT = isa.RET) := labels_ne isa h 14 11 (by decide)
  have n12 : ¬ (isa.HALT = isa.LOAD) := labels_ne isa h 14 12 (by decide)
  have n13 : ¬ (isa.HALT = isa.PRINT) := labels_ne isa h 14 13 (by decide)
  unfold execute
  simp only [n0, n1, n2, n3, n4, n5, n6, n7, n8, n9, n10, n11, n12, n13, if_false, if_true, eq_self_iff_true]

end Full

namespace Flat

/-- Two labels at different places of the list of opcodes are different. -/
theorem flat_labels_ne (isa : instruction_set) (h : isa.distinct) (i j : Fin 14) (hij : i ≠ j) :
    isa.labels.get i ≠ isa.labels.get j :=
  fun e => hij ((List.Nodup.get_inj_iff h).1 e)

/-- Dispatch of `execute` on the opcode `ICONST`. -/
theorem flat_execute_ICONST (isa : instruction_set) (state : vm_state) :
    execute isa state isa.ICONST =
      (1, (push { state with program_counter := state.program_counter + 1 }
        (state.instructions state.program_counter)).2) := by
  unfold execute
  simp only [if_false, if_true, eq_self_iff_true]

/-- Dispatch of `execute` on the opcode `IADD`. -/
theorem flat_execute_IADD (isa : instruction_set) (h : isa.distinct) (state : vm_state) :
    execute isa state isa.IADD =
      (1, binary_branch state (fun a b => wrap_int (a + b))) := by
  have n0 : ¬ (isa.IADD = isa.ICONST) := flat_labels_ne isa h 1 0 (by decide)
  unfold execute
  simp only [n0, if_false, if_true, eq_self_iff_true]

/-- Dispatch of `execute` on the opcode `ISUB`. -/
theorem flat_execute_ISUB (isa : instruction_set) (h : isa.distinct) (state : vm_state) :
    execute isa state isa.ISUB =
      (1, binary_branch state (fun a b => wrap_int (a - b))) := by
  have n0 : ¬ (isa.ISUB = isa.ICONST) := flat_labels_ne isa h 2 0 (by decide)
  have n1 : ¬ (isa.ISUB = isa.IADD) := flat_labels_ne isa h 2 1 (by decide)
  unfold execute
  simp only [n0, n1, if_false, if_true, eq_self_iff_true]

/-- Dispatch of `execute` on the opcode `IMUL`. -/
theorem flat_execute_IMUL (isa : instruction_set) (h : isa.distinct) (state : vm_state) :
    execute isa state isa.IMUL =
      (1, binary_branch state (fun a b => wrap_int (a * b))) := by
  have n0 : ¬ (isa.IMUL = isa.ICONST) := flat_labels_ne isa h 3 0 (by decide)
  have n1 : ¬ (isa.IMUL = isa.IADD) := flat_labels_ne isa h 3 1 (by decide)
  have n2 : ¬ (isa.IMUL = isa.ISUB) := flat_labels_ne isa h 3 2 (by decide)
  unfold execute
  simp only [n0, n1, n2, if_false, if_true, eq_self_iff_true]

/-- Dispatch of `execute` on the opcode `LT`. -/
theorem flat_execute_LT (isa : instruction_set) (h : isa.distinct) (state : vm_state) :
    execute isa state isa.LT =
      (1, binary_branch state (fun a b => if a < b then 1 else 0)) := by
  have n0 : ¬ (isa.LT = isa.ICONST) := flat_labels_ne isa h 4 0 (by decide)
  have n1 : ¬ (isa.LT = isa.IADD) := flat_labels_ne isa h 4 1 (by decide)
  have n2 : ¬ (isa.LT = isa.ISUB) := flat_labels_ne isa h 4 2 (by decide)
  have n3 : ¬ (isa.LT = isa.IMUL) := flat_labels_ne isa h 4 3 (by decide)
  unfold execute
  simp only [n0, n1, n2, n3, if_false, if_true, eq_self_iff_true]

/-- Dispatch of `execute` on the opcode `GT`. -/
theorem flat_execute_GT (isa : instruction_set) (h : isa.distinct) (state : vm_state) :
    execute isa state isa.GT =
      (1, binary_branch state (fun a b => if a > b then 1 else 0)) := by
  have n0 : ¬ (isa.GT = isa.ICONST) := flat_labels_ne isa h 5 0 (by decide)
  have n1 : ¬ (isa.GT = isa.IADD) := flat_labels_ne isa h 5 1 (by decide)
  have n2 : ¬ (isa.GT = isa.ISUB) := flat_labels_ne isa h 5 2 (by decide)
  have n3 : ¬ (isa.GT = isa.IMUL) := flat_labels_ne isa h 5 3 (by decide)
  have n4 : ¬ (isa.GT = isa.LT) := flat_labels_ne isa h 5 4 (by decide)
  unfold execute
  simp only [n0, n1, n2, n3, n4, if_false, if_true, eq_self_iff_true]

/-- Dispatch of `execute` on the opcode `EQ`. -/
theorem flat_execute_EQ (isa : instruction_set) (h : isa.distinct) (state : vm_state) :
    execute isa state isa.EQ =
      (1, binary_branch state (fun a b => if a = b then 1 else 0)) := by
  have n0 : ¬ (isa.EQ = isa.ICONST) := flat_labels_ne isa h 6 0 (by decide)
  have n1 : ¬ (isa.EQ = isa.IADD) := flat_labels_ne isa h 6 1 (by decide)
  have n2 : ¬ (isa.EQ = isa.ISUB) := flat_labels_ne isa h 6 2 (by decide)
  have n3 : ¬ (isa.EQ = isa.IMUL) := flat_labels_ne isa h 6 3 (by decide)
  have n4 : ¬ (isa.EQ = isa.LT) := flat_labels_ne isa h 6 4 (by decide)
  have n5 : ¬ (isa.EQ = isa.GT) := flat_labels_ne isa h 6 5 (by decide)
  unfold execute
  simp only [n0, n1, n2, n3, n4, n5, if_false, if_true, eq_self_iff_true]

/-- Dispatch of `execute` on the opcode `NEQ`. -/
theorem flat_execute_NEQ (isa : instruction_set) (h : isa.distinct) (state : vm_state) :
    execute isa state isa.NEQ =
      (1, binary_branch state (fun a b => if a ≠ b then 1 else 0)) := by
  have n0 : ¬ (isa.NEQ = isa.ICONST) := flat_labels_ne isa h 7 0 (by decide)
  have n1 : ¬ (isa.NEQ = isa.IADD) := flat_labels_ne isa h 7 1 (by decide)
  have n2 : ¬ (isa.NEQ = isa.ISUB) := flat_labels_ne isa h 7 2 (by decide)
  have n3 : ¬ (isa.NEQ = isa.IMUL) := flat_labels_ne isa h 7 3 (by decide)
  have n4 : ¬ (isa.NEQ = isa.LT) := flat_labels_ne isa h 7 4 (by decide)
  have n5 : ¬ (isa.NEQ = isa.GT) := flat_labels_ne isa h 7 5 (by decide)
  have n6 : ¬ (isa.NEQ = isa.EQ) := flat_labels_ne isa h 7 6 (by decide)
  unfold execute
  simp only [n0, n1, n2, n3, n4, n5, n6, if_false, if_true, eq_self_iff_true]

/-- Dispatch of `execute` on the opcode `BRT`. -/
theorem flat_execute_BRT (isa : instruction_set) (h : isa.distinct) (state : vm_state) :
    execute isa state isa.BRT =
      (1, branch_branch state (fun flag => decide (flag ≠ 0))) := by
  have n0 : ¬ (isa.BRT = isa.ICONST) := flat_labels_ne isa h 8 0 (by decide)
  have n1 : ¬ (isa.BRT = isa.IADD) := flat_labels_ne isa h 8 1 (by decide)
  have n2 : ¬ (isa.BRT = isa.ISUB) := flat_labels_ne isa h 8 2 (by decide)
  have n3 : ¬ (isa.BRT = isa.IMUL) := flat_labels_ne isa h 8 3 (by decide)
  have n4 : ¬ (isa.BRT = isa.LT) := flat_labels_ne isa h 8 4 (by decide)
  have n5 : ¬ (isa.BRT = isa.GT) := flat_labels_ne isa h 8 5 (by decide)
  have n6 : ¬ (isa.BRT = isa.EQ) := flat_labels_ne isa h 8 6 (by decide)
  have n7 : ¬ (isa.BRT = isa.NEQ) := flat_labels_ne isa h 8 7 (by decide)
  unfold execute
  simp only [n0, n1, n2, n3, n4, n5, n6, n7, if_false, if_true, eq_self_iff_true]

/-- Dispatch of `execute` on the opcode `BRF`. -/
theorem flat_execute_BRF (isa : instruction_set) (h : isa.distinct) (state : vm_state) :
    execute isa state isa.BRF =
      (1, branch_branch state (fun flag => decide (flag = 0))) := by
  have n0 : ¬ (isa.BRF = isa.ICONST) := flat_labels_ne isa h 9 0 (by decide)
  have n1 : ¬ (isa.BRF = isa.IADD) := flat_labels_ne isa h 9 1 (by decide)
  have n2 : ¬ (isa.BRF = isa.ISUB) := flat_labels_ne isa h 9 2 (by decide)
  have n3 : ¬ (isa.BRF = isa.IMUL) := flat_labels_ne isa h 9 3 (by decide)
  have n4 : ¬ (isa.BRF = isa.LT) := flat_labels_ne isa h 9 4 (by decide)
  have n5 : ¬ (isa.BRF = isa.GT) := flat_labels_ne isa h 9 5 (by decide)
  have n6 : ¬ (isa.BRF = isa.EQ) := flat_labels_ne isa h 9 6 (by decide)
  have n7 : ¬ (isa.BRF = isa.NEQ) := flat_labels_ne isa h 9 7 (by decide)
  have n8 : ¬ (isa.BRF = isa.BRT) := flat_labels_ne isa h 9 8 (by decide)
  unfold execute
  simp only [n0, n1, n2, n3, n4, n5, n6, n7, n8, if_false, if_true, eq_self_iff_true]

/-- Dispatch of `execute` on the opcode `CALL`. -/
theorem flat_execute_CALL (isa : instruction_set) (h : isa.distinct) (state : vm_state) :
    execute isa state isa.CALL =
      (1, state) := by
  have n0 : ¬ (isa.CALL = isa.ICONST) := flat_labels_ne isa h 10 0 (by decide)
  have n1 : ¬ (isa.CALL = isa.IADD) := flat_labels_ne isa h 10 1 (by decide)
  have n2 : ¬ (isa.CALL = isa.ISUB) := flat_labels_ne isa h 10 2 (by decide)
  have n3 : ¬ (isa.CALL = isa.IMUL) := flat_labels_ne isa h 10 3 (by decide)
  have n4 : ¬ (isa.CALL = isa.LT) := flat_labels_ne isa h 10 4 (by decide)
  have n5 : ¬ (isa.CALL = isa.GT) := flat_labels_ne isa h 10 5 (by decide)
  have n6 : ¬ (isa.CALL = isa.EQ) := flat_labels_ne isa h 10 6 (by decide)
  have n7 : ¬ (isa.CALL = isa.NEQ) := flat_labels_ne isa h 10 7 (by decide)
  have n8 : ¬ (isa.CALL = isa.BRT) := flat_labels_ne isa h 10 8 (by decide)
  have n9 : ¬ (isa.CALL = isa.BRF) := flat_labels_ne isa h 10 9 (by decide)
  unfold execute
  simp only [n0, n1, n2, n3, n4, n5, n6, n7, n8, n9, if_false, if_true, eq_self_iff_true]

/-- Dispatch of `execute` on the opcode `RET`. -/
theorem flat_execute_RET (isa : instruction_set) (h : isa.distinct) (state : vm_state) :
    execute isa state isa.RET =
      (1, state) := by
  have n0 : ¬ (isa.RET = isa.ICONST) := flat_labels_ne isa h 11 0 (by decide)
  have n1 : ¬ (isa.RET = isa.IADD) := flat_labels_ne isa h 11 1 (by decide)
  have n2 : ¬ (isa.RET = isa.ISUB) := flat_labels_ne isa h 11 2 (by decide)
  have n3 : ¬ (isa.RET = isa.IMUL) := flat_labels_ne isa h 11 3 (by decide)
  have n4 : ¬ (isa.RET = isa.LT) := flat_labels_ne isa h 11 4 (by decide)
  have n5 : ¬ (isa.RET = isa.GT) := flat_labels_ne isa h 11 5 (by decide)
  have n6 : ¬ (isa.RET = isa.EQ) := flat_labels_ne isa h 11 6 (by decide)
  have n7 : ¬ (isa.RET = isa.NEQ) := flat_labels_ne isa h 11 7 (by decide)
  have n8 : ¬ (isa.RET = isa.BRT) := flat_labels_ne isa h 11 8 (by decide)
  have n9 : ¬ (isa.RET = isa.BRF) := flat_labels_ne isa h 11 9 (by decide)
  have n10 : ¬ (isa.RET = isa.CALL) := flat_labels_ne isa h 11 10 (by decide)
  unfold execute
  simp only [n0, n1, n2, n3, n4, n5, n6, n7, n8, n9, n10, if_false, if_true, eq_self_iff_true]

/-- Dispatch of `execute` on the opcode `PRINT`. -/
theorem flat_execute_PRINT (isa : instruction_set) (h : isa.distinct) (state : vm_state) :
    execute isa state isa.PRINT =
      (1, state) := by
  have n0 : ¬ (isa.PRINT = isa.ICONST) := flat_labels_ne isa h 12 0 (by decide)
  have n1 : ¬ (isa.PRINT = isa.IADD) := flat_labels_ne isa h 12 1 (by decide)
  have n2 : ¬ (isa.PRINT = isa.ISUB) := flat_labels_ne isa h 12 2 (by decide)
  have n3 : ¬ (isa.PRINT = isa.IMUL) := flat_labels_ne isa h 12 3 (by decide)
  have n4 : ¬ (isa.PRINT = isa.LT) := flat_labels_ne isa h 12 4 (by decide)
  have n5 : ¬ (isa.PRINT = isa.GT) := flat_labels_ne isa h 12 5 (by decide)
  have n6 : ¬ (isa.PRINT = isa.EQ) := flat_labels_ne isa h 12 6 (by decide)
  have n7 : ¬ (isa.PRINT = isa.NEQ) := flat_labels_ne isa h 12 7 (by decide)
  have n8 : ¬ (isa.PRINT = isa.BRT) := flat_labels_ne isa h 12 8 (by decide)
  have n9 : ¬ (isa.PRINT = isa.BRF) := flat_labels_ne isa h 12 9 (by decide)
  have n10 : ¬ (isa.PRINT = isa.CALL) := flat_labels_ne isa h 12 10 (by decide)
  have n11 : ¬ (isa.PRINT = isa.RET) := flat_labels_ne isa h 12 11 (by decide)
  unfold execute
  simp only [n0, n1, n2, n3, n4, n5, n6, n7, n8, n9, n10, n11, if_false, if_true, eq_self_iff_true]

/-- Dispatch of `execute` on the opcode `HALT`. -/
theorem flat_execute_HALT (isa : instruction_set) (h : isa.distinct) (state : vm_state) :
    execute isa state isa.HALT =
      (1, { state with is_running := 0 }) := by
  have n0 : ¬ (isa.HALT = isa.ICONST) := flat_labels_ne isa h 13 0 (by decide)
  have n1 : ¬ (isa.HALT = isa.IADD) := flat_labels_ne isa h 13 1 (by decide)
  have n2 : ¬ (isa.HALT = isa.ISUB) := flat_labels_ne isa h 13 2 (by decide)
  have n3 : ¬ (isa.HALT = isa.IMUL) := flat_labels_ne isa h 13 3 (by decide)
  have n4 : ¬ (isa.HALT = isa.LT) := flat_labels_ne isa h 13 4 (by decide)
  have n5 : ¬ (isa.HALT = isa.GT) := flat_labels_ne isa h 13 5 (by decide)
  have n6 : ¬ (isa.HALT = isa.EQ) := flat_labels_ne isa h 13 6 (by decide)
  have n7 : ¬ (isa.HALT = isa.NEQ) := flat_labels_ne isa h 13 7 (by decide)
  have n8 : ¬ (isa.HALT = isa.BRT) := flat_labels_ne isa h 13 8 (by decide)
  have n9 : ¬ (isa.HALT = isa.BRF) := flat_labels_ne isa h 13 9 (by decide)
  have n10 : ¬ (isa.HALT = isa.CALL) := flat_labels_ne isa h 13 10 (by decide)
  have n11 : ¬ (isa.HALT = isa.RET) := flat_labels_ne isa h 13 11 (by decide)
  have n12 : ¬ (isa.HALT = isa.PRINT) := flat_labels_ne isa h 13 12 (by decide)
  unfold execute
  simp only [n0, n1, n2, n3, n4, n5, n6, n7, n8, n9, n10, n11, n12, if_false, if_true, eq_self_iff_true]

end Flat


/-! ## Claims about `src/src/vsvm.c` and `src/vsvm.c` -/

namespace Full

/-- One loop iteration at a word holding `CALL` runs `save_state_and_jump_to_fn`. -/
theorem step_CALL (isa : instruction_set) (h : isa.distinct) (state : vm)
    (hop : state.instructions state.program_counter = isa.CALL) :
    step isa state = (1, save_state_and_jump_to_fn (fetch state).2) := by
  simp only [step, decode, fetch, hop]
  exact execute_CALL isa h _

/-- One loop iteration at a word holding `RET` runs
`return_from_fn_and_unwind_stack`. -/
theorem step_RET (isa : instruction_set) (h : isa.distinct) (state : vm)
    (hop : state.instructions state.program_counter = isa.RET) :
    step isa state = (1, return_from_fn_and_unwind_stack (fetch state).2) := by
  simp only [step, decode, fetch, hop]
  exact execute_RET isa h _

/-- The registers after `save_state_and_jump_to_fn`. -/
theorem save_state_registers (state : vm) :
    (save_state_and_jump_to_fn state).stack_pointer = state.stack_pointer + 3 ∧
    (save_state_and_jump_to_fn state).frame_pointer = state.stack_pointer + 3 ∧
    (save_state_and_jump_to_fn state).program_counter =
      state.instructions state.program_counter ∧
    (save_state_and_jump_to_fn state).instructions = state.instructions ∧
    (save_state_and_jump_to_fn state).is_running = state.is_running := by
  refine ⟨?_, ?_, ?_, ?_, ?_⟩ <;>
    first | rfl | (simp only [save_state_and_jump_to_fn, push]; omega)

/-- The stack after `save_state_and_jump_to_fn`: three slots written above the
old top, nothing else. -/
theorem save_state_stack (state : vm) (i : Int) :
    (save_state_and_jump_to_fn state).stack i =
      if i = state.stack_pointer + 3 then state.program_counter + 2
      else if i = state.stack_pointer + 2 then state.frame_pointer
      else if i = state.stack_pointer + 1 then state.instructions (state.program_counter + 1)
      else state.stack i := by
  simp only [save_state_and_jump_to_fn, push]
  have e3 : state.stack_pointer + 1 + 1 + 1 = state.stack_pointer + 3 := by omega
  have e2 : state.stack_pointer + 1 + 1 = state.stack_pointer + 2 := by omega
  have e1 : state.program_counter + 1 + 1 = state.program_counter + 2 := by omega
  rw [e3, e2, e1]

/-- The registers after `return_from_fn_and_unwind_stack`, in terms of the
frame the frame pointer designates. -/
theorem return_registers (state : vm) :
    (return_from_fn_and_unwind_stack state).stack_pointer =
      state.frame_pointer - 3 - state.stack (state.frame_pointer - 2) + 1 ∧
    (return_from_fn_and_unwind_stack state).frame_pointer =
      state.stack (state.frame_pointer - 1) ∧
    (return_from_fn_and_unwind_stack state).program_counter =
      state.stack state.frame_pointer ∧
    (return_from_fn_and_unwind_stack state).instructions = state.instructions ∧
    (return_from_fn_and_unwind_stack state).is_running = state.is_running := by
  have e2 : state.frame_pointer - 1 - 1 = state.frame_pointer - 2 := by omega
  have e3 : state.frame_pointer - 1 - 1 - 1 = state.frame_pointer - 3 := by omega
  refine ⟨?_, ?_, ?_, ?_, ?_⟩ <;>
    first | rfl | (simp only [return_from_fn_and_unwind_stack, push, pop]; rw [e3, e2])

/-- The stack after `return_from_fn_and_unwind_stack`: the old top value is
written at the new top, nothing else. -/
theorem return_stack (state : vm) (i : Int) :
    (return_from_fn_and_unwind_stack state).stack i =
      if i = state.frame_pointer - 3 - state.stack (state.frame_pointer - 2) + 1
      then state.stack state.stack_pointer else state.stack i := by
  simp only [return_from_fn_and_unwind_stack, push, pop]
  have e2 : state.frame_pointer - 1 - 1 = state.frame_pointer - 2 := by omega
  have e3 : state.frame_pointer - 1 - 1 - 1 = state.frame_pointer - 3 := by omega
  rw [e3, e2]

end Full

namespace Full

/-- C1, as stated, at a concrete run on the sample opcode numbering: the
caller pushes 7, 10, 20 and executes `CALL 10 2` at word 6; the callee pops six
values, makes the call `CALL 26 -6` to a lone `RET` and then stands at its
own `RET` (word 25) with `r = 25` on top, `stack_pointer = 6 > frame_pointer
= 5`, the frame pointer `CALL` set and the saved slots `2, -1, 9` untouched.
After that `RET`, `stack_pointer = 1`, 25 is on top, `frame_pointer = -1` and
`program_counter = 9`, but slot 0, below the two arguments, holds -6 where it
held 7 before the call. -/
theorem call_ret_net_effect_counterexample :
    ((overwriting_state 3).program_counter = 6 ∧
     (overwriting_state 3).stack_pointer = 2 ∧
     (overwriting_state 3).frame_pointer = -1 ∧
     print_stack (overwriting_state 3) = [7, 10, 20]) ∧
    ((overwriting_state 4).program_counter = 10 ∧
     (overwriting_state 4).frame_pointer = 5 ∧
     print_stack (overwriting_state 4) = [7, 10, 20, 2, -1, 9]) ∧
    ((overwriting_state 12).instructions (overwriting_state 12).program_counter =
       sample_set.RET ∧
     (overwriting_state 12).frame_pointer = 5 ∧
     (overwriting_state 12).stack_pointer = 6 ∧
     print_stack (overwriting_state 12) = [-6, 5, 25, 2, -1, 9, 25]) ∧
    ((overwriting_state 13).stack_pointer = 1 ∧
     (overwriting_state 13).frame_pointer = -1 ∧
     (overwriting_state 13).program_counter = 9 ∧
     print_stack (overwriting_state 13) = [-6, 25]) := by
  refine ⟨⟨rfl, rfl, rfl, rfl⟩, ⟨rfl, rfl, rfl⟩, ⟨rfl, rfl, rfl, rfl⟩, rfl, rfl, rfl, rfl⟩

/-- C1, amended: `CALL target n` at word `p` with at least `n` values on the
stack, then any body whose final state `body_end` has `r` on top,
`stack_pointer > frame_pointer`, the frame pointer `CALL` set and the three
saved slots as `CALL` wrote them, then `RET`: both steps succeed,
`stack_pointer` ends at `s - n + 1` with `r` on top, `frame_pointer` is back
to `f` and `program_counter` is `p + 3`; `CALL` writes no slot `0..s` and
`RET` writes no slot at or below `s - n`, so a slot below the arguments holds
what it held before the call whenever the body left it alone. -/
theorem call_ret_net_effect (isa : instruction_set) (h : isa.distinct)
    (state body_end : vm) (p target n r : Int)
    (hpc : state.program_counter = p)
    (hop : state.instructions p = isa.CALL)
    (htarget : state.instructions (p + 1) = target)
    (hn : state.instructions (p + 2) = n)
    (_hargs : 0 ≤ n ∧ n ≤ state.stack_pointer + 1)
    (hret : body_end.instructions body_end.program_counter = isa.RET)
    (hfp : body_end.frame_pointer = (step isa state).2.frame_pointer)
    (_hsp : body_end.frame_pointer < body_end.stack_pointer)
    (hsaved : ∀ i, state.stack_pointer < i → i ≤ state.stack_pointer + 3 →
      body_end.stack i = (step isa state).2.stack i)
    (hr : body_end.stack body_end.stack_pointer = r) :
    (step isa state).1 = 1 ∧ (step isa state).2.program_counter = target ∧
    (step isa body_end).1 = 1 ∧
    (step isa body_end).2.stack_pointer = state.stack_pointer - n + 1 ∧
    peek (step isa body_end).2 = r ∧
    (∀ i, i ≤ state.stack_pointer → (step isa state).2.stack i = state.stack i) ∧
    (∀ i, i ≤ state.stack_pointer - n → (step isa body_end).2.stack i = body_end.stack i) ∧
    (∀ i, i ≤ state.stack_pointer - n → body_end.stack i = state.stack i →
      (step isa body_end).2.stack i = state.stack i) ∧
    (step isa body_end).2.frame_pointer = state.frame_pointer ∧
    (step isa body_end).2.program_counter = p + 3 := by
  subst hpc
  have e1 := step_CALL isa h state hop
  have e2 := step_RET isa h body_end hret
  rw [e1] at hfp hsaved
  rw [e1, e2]
  replace hfp : body_end.frame_pointer =
    (save_state_and_jump_to_fn (fetch state).2).frame_pointer := hfp
  obtain ⟨-, c2, c3, -, -⟩ := save_state_registers (fetch state).2
  obtain ⟨r1, r2, r3, -, -⟩ := return_registers (fetch body_end).2
  have bs : (fetch body_end).2.stack_pointer = body_end.stack_pointer := rfl
  have bf : (fetch body_end).2.frame_pointer = body_end.frame_pointer := rfl
  have bk : (fetch body_end).2.stack = body_end.stack := rfl
  have k : ∀ i, (save_state_and_jump_to_fn (fetch state).2).stack i =
      if i = state.stack_pointer + 3 then state.program_counter + 3
      else if i = state.stack_pointer + 2 then state.frame_pointer
      else if i = state.stack_pointer + 1 then state.instructions (state.program_counter + 2)
      else state.stack i := by
    intro i
    rw [save_state_stack]
    show (if i = state.stack_pointer + 3 then state.program_counter + 1 + 2
      else if i = state.stack_pointer + 2 then state.frame_pointer
      else if i = state.stack_pointer + 1 then
        state.instructions (state.program_counter + 1 + 1)
      else state.stack i) = _
    rw [show state.program_counter + 1 + 2 = state.program_counter + 3 by omega,
      show state.program_counter + 1 + 1 = state.program_counter + 2 by omega]
  have a3 : body_end.frame_pointer = state.stack_pointer + 3 := hfp.trans c2
  have a1 : body_end.frame_pointer - 2 = state.stack_pointer + 1 := by omega
  have a2 : body_end.frame_pointer - 1 = state.stack_pointer + 2 := by omega
  have s1 : body_end.stack (state.stack_pointer + 1) = n := by
    rw [hsaved _ (by omega) (by omega)]
    show (save_state_and_jump_to_fn (fetch state).2).stack _ = n
    rw [k, if_neg (by omega), if_neg (by omega), if_pos rfl, hn]
  have s2 : body_end.stack (state.stack_pointer + 2) = state.frame_pointer := by
    rw [hsaved _ (by omega) (by omega)]
    show (save_state_and_jump_to_fn (fetch state).2).stack _ = _
    rw [k, if_neg (by omega), if_pos rfl]
  have s3 : body_end.stack (state.stack_pointer + 3) = state.program_counter + 3 := by
    rw [hsaved _ (by omega) (by omega)]
    show (save_state_and_jump_to_fn (fetch state).2).stack _ = _
    rw [k, if_pos rfl]
  rw [bf, bk, a1, s1] at r1
  rw [bf, bk, a2, s2] at r2
  rw [bf, bk, a3, s3] at r3
  have hret_stack : ∀ i, i ≤ state.stack_pointer - n →
      (return_from_fn_and_unwind_stack (fetch body_end).2).stack i = body_end.stack i := by
    intro i hi
    rw [return_stack, bf, bk, a1, s1, if_neg (by omega)]
  refine ⟨rfl, ?_, rfl, ?_, ?_, ?_, hret_stack, fun i hi hb => (hret_stack i hi).trans hb,
    r2, ?_⟩
  · show (save_state_and_jump_to_fn (fetch state).2).program_counter = target
    rw [c3]; exact htarget
  · show (return_from_fn_and_unwind_stack (fetch body_end).2).stack_pointer = _
    rw [r1, a3]; omega
  · show (return_from_fn_and_unwind_stack (fetch body_end).2).stack
      (return_from_fn_and_unwind_stack (fetch body_end).2).stack_pointer = r
    rw [return_stack, r1, bf, bk, bs, a1, s1, if_pos rfl, hr]
  · intro i hi
    show (save_state_and_jump_to_fn (fetch state).2).stack i = _
    rw [k, if_neg (by omega), if_neg (by omega), if_neg (by omega)]
  · exact r3

/-- C3: with `program_counter` just after a `CALL` opcode at word `p`,
executing `CALL` with immediates `(target, n)` writes `n`, the frame pointer
and `p + 3` in the three slots above the top, sets `stack_pointer` and
`frame_pointer` to `s + 3` and `program_counter` to `target`, and leaves the
slots up to `s` unchanged. -/
theorem call_step (isa : instruction_set) (h : isa.distinct) (state : vm)
    (p target n : Int)
    (hpc : state.program_counter = p + 1)
    (htarget : state.instructions (p + 1) = target)
    (hn : state.instructions (p + 2) = n) :
    (execute isa state isa.CALL).1 = 1 ∧
    (execute isa state isa.CALL).2.stack (state.stack_pointer + 1) = n ∧
    (execute isa state isa.CALL).2.stack (state.stack_pointer + 2) = state.frame_pointer ∧
    (execute isa state isa.CALL).2.stack (state.stack_pointer + 3) = p + 3 ∧
    (execute isa state isa.CALL).2.stack_pointer = state.stack_pointer + 3 ∧
    (execute isa state isa.CALL).2.frame_pointer = state.stack_pointer + 3 ∧
    (execute isa state isa.CALL).2.program_counter = target ∧
    (∀ i, i ≤ state.stack_pointer →
      (execute isa state isa.CALL).2.stack i = state.stack i) := by
  rw [execute_CALL isa h]
  obtain ⟨c1, c2, c3, -, -⟩ := save_state_registers state
  have q2 : p + 1 + 1 = p + 2 := by omega
  refine ⟨rfl, ?_, ?_, ?_, c1, c2, ?_, ?_⟩
  · show (save_state_and_jump_to_fn state).stack _ = n
    rw [save_state_stack, if_neg (by omega), if_neg (by omega), if_pos rfl, hpc, q2, hn]
  · show (save_state_and_jump_to_fn state).stack _ = _
    rw [save_state_stack, if_neg (by omega), if_pos rfl]
  · show (save_state_and_jump_to_fn state).stack _ = _
    rw [save_state_stack, if_pos rfl, hpc]; omega
  · show (save_state_and_jump_to_fn state).program_counter = target
    rw [c3, hpc, htarget]
  · intro i hi
    show (save_state_and_jump_to_fn state).stack i = _
    rw [save_state_stack, if_neg (by omega), if_neg (by omega), if_neg (by omega)]

end Full

namespace Full

/-- C1, at a concrete call: `CALL 5 2` on the stack `[10, 20]`, callee
returning 30. -/
theorem call_ret_net_effect_witness :
    (step sample_set sample_callee).2.stack_pointer = 1 - 2 + 1 ∧
    peek (step sample_set sample_callee).2 = 30 ∧
    (step sample_set sample_callee).2.frame_pointer = -1 ∧
    (step sample_set sample_callee).2.program_counter = 0 + 3 :=
  have w := call_ret_net_effect sample_set (by decide) sample_caller sample_callee 0 5 2 30
    rfl rfl rfl rfl (by decide) rfl rfl (by decide)
    (by intro i h1 h2
        have h1' : (1 : Int) < i := h1
        have h2' : i ≤ 4 := h2
        interval_cases i <;> rfl)
    rfl
  ⟨w.2.2.2.1, w.2.2.2.2.1, w.2.2.2.2.2.2.2.2.1, w.2.2.2.2.2.2.2.2.2⟩

/-- C3, at a concrete call: `CALL 5 2` fetched at word 0 on the stack
`[10, 20]`. -/
theorem call_step_witness :
    (execute sample_set sample_fetched sample_set.CALL).2.stack 2 = 2 ∧
    (execute sample_set sample_fetched sample_set.CALL).2.stack 3 = -1 ∧
    (execute sample_set sample_fetched sample_set.CALL).2.stack 4 = 3 ∧
    (execute sample_set sample_fetched sample_set.CALL).2.stack_pointer = 4 ∧
    (execute sample_set sample_fetched sample_set.CALL).2.frame_pointer = 4 ∧
    (execute sample_set sample_fetched sample_set.CALL).2.program_counter = 5 :=
  have w := call_step sample_set (by decide) sample_fetched 0 5 2 rfl rfl rfl
  ⟨w.2.1, w.2.2.1, w.2.2.2.1, w.2.2.2.2.1, w.2.2.2.2.2.1, w.2.2.2.2.2.2.1⟩

end Full

/-- C2: on the stack `[5, 3]` (5 pushed first) the handlers of
`src/src/vsvm.c` apply the operator to (top, second): `ISUB` leaves
`3 - 5 = -2`, `ILT` leaves 1 and `IGT` leaves 0, where the claim has 2, 0
and 1; the inline handlers of `src/vsvm.c` leave 2, 0 and 1. In general
`perform_binary_op` leaves `op(top, second)` on top and the inline handlers
leave `f(second, top)`. -/
theorem binary_operand_order_diverges :
    (Full.print_stack (Full.execute Full.sample_set Full.sample_operands Full.sample_set.ISUB).2 = [-2] ∧
     Full.print_stack (Full.execute Full.sample_set Full.sample_operands Full.sample_set.ILT).2 = [1] ∧
     Full.print_stack (Full.execute Full.sample_set Full.sample_operands Full.sample_set.IGT).2 = [0]) ∧
    (Flat.print_stack (Flat.execute Flat.sample_set Flat.sample_operands Flat.sample_set.ISUB).2 = [2] ∧
     Flat.print_stack (Flat.execute Flat.sample_set Flat.sample_operands Flat.sample_set.LT).2 = [0] ∧
     Flat.print_stack (Flat.execute Flat.sample_set Flat.sample_operands Flat.sample_set.GT).2 = [1]) ∧
    (∀ (state : Full.vm) (op : Int → Int → Int),
      Full.peek (Full.perform_binary_op state op) =
        op (state.stack state.stack_pointer) (state.stack (state.stack_pointer - 1))) ∧
    (∀ (st : Flat.vm_state) (f : Int → Int → Int),
      Flat.peek (Flat.binary_branch st f) =
        f (st.stack (st.stack_pointer - 1)) (st.stack st.stack_pointer)) := by
  refine ⟨⟨?_, ?_, ?_⟩, ⟨?_, ?_, ?_⟩, ?_, ?_⟩
  · rfl
  · rfl
  · rfl
  · rfl
  · rfl
  · rfl
  · intro state op
    simp [Full.peek, Full.perform_binary_op, Full.push, Full.pop]
  · intro st f
    simp [Flat.peek, Flat.binary_branch, Flat.push, Flat.pop]

namespace Full

/-- What `branch_on_condition` leaves: one value popped, nothing written, and
the jump decided by `fn` of the popped flag. -/
theorem branch_on_condition_effect (state : vm) (fn : Int → Int) :
    (branch_on_condition state fn).stack_pointer = state.stack_pointer - 1 ∧
    (branch_on_condition state fn).stack = state.stack ∧
    (branch_on_condition state fn).frame_pointer = state.frame_pointer ∧
    (branch_on_condition state fn).is_running = state.is_running ∧
    (branch_on_condition state fn).instructions = state.instructions ∧
    (fn (state.stack state.stack_pointer) ≠ 0 →
      (branch_on_condition state fn).program_counter =
        state.instructions state.program_counter) ∧
    (fn (state.stack state.stack_pointer) = 0 →
      (branch_on_condition state fn).program_counter = state.program_counter + 1) := by
  unfold branch_on_condition pop
  by_cases hf : fn (state.stack state.stack_pointer) = 0
  · simp [hf]
  · simp [hf]

end Full

namespace Flat

/-- What the `BRT`/`BRF` branches of `execute` leave: one value popped,
nothing written, and the jump decided by the test on the popped flag. -/
theorem branch_branch_effect (state : vm_state) (taken : Int → Bool) :
    (branch_branch state taken).stack_pointer = state.stack_pointer - 1 ∧
    (branch_branch state taken).stack = state.stack ∧
    (branch_branch state taken).frame_pointer = state.frame_pointer ∧
    (branch_branch state taken).is_running = state.is_running ∧
    (branch_branch state taken).instructions = state.instructions ∧
    (taken (state.stack state.stack_pointer) = true →
      (branch_branch state taken).program_counter =
        state.instructions state.program_counter) ∧
    (taken (state.stack state.stack_pointer) = false →
      (branch_branch state taken).program_counter = state.program_counter + 1) := by
  unfold branch_branch pop
  cases hf : taken (state.stack state.stack_pointer) <;> simp [hf]

end Flat

/-- C4: in both interpreters, with a non-empty stack and `program_counter`
just after a branch opcode at word `p` whose operand is `target`, `BRT` and
`BRF` succeed, pop exactly one value (the flag) and write nothing, keep
`frame_pointer`, and leave `program_counter = target` when the branch is taken
(`BRT`: flag nonzero, `BRF`: flag zero) and `p + 2` when it is not. -/
theorem branch_evaluation (isa : Full.instruction_set) (h : isa.distinct)
    (isb : Flat.instruction_set) (hb : isb.distinct)
    (state : Full.vm) (st : Flat.vm_state) (p target : Int)
    (hpc : state.program_counter = p + 1) (htarget : state.instructions (p + 1) = target)
    (_hne : 0 ≤ state.stack_pointer)
    (hpc2 : st.program_counter = p + 1) (htarget2 : st.instructions (p + 1) = target)
    (_hne2 : 0 ≤ st.stack_pointer) :
    ((Full.execute isa state isa.BRT).1 = 1 ∧
     (Full.execute isa state isa.BRT).2.stack_pointer = state.stack_pointer - 1 ∧
     (Full.execute isa state isa.BRT).2.stack = state.stack ∧
     (Full.execute isa state isa.BRT).2.frame_pointer = state.frame_pointer ∧
     (state.stack state.stack_pointer ≠ 0 →
       (Full.execute isa state isa.BRT).2.program_counter = target) ∧
     (state.stack state.stack_pointer = 0 →
       (Full.execute isa state isa.BRT).2.program_counter = p + 2)) ∧
    ((Full.execute isa state isa.BRF).1 = 1 ∧
     (Full.execute isa state isa.BRF).2.stack_pointer = state.stack_pointer - 1 ∧
     (Full.execute isa state isa.BRF).2.stack = state.stack ∧
     (Full.execute isa state isa.BRF).2.frame_pointer = state.frame_pointer ∧
     (state.stack state.stack_pointer = 0 →
       (Full.execute isa state isa.BRF).2.program_counter = target) ∧
     (state.stack state.stack_pointer ≠ 0 →
       (Full.execute isa state isa.BRF).2.program_counter = p + 2)) ∧
    ((Flat.execute isb st isb.BRT).1 = 1 ∧
     (Flat.execute isb st isb.BRT).2.stack_pointer = st.stack_pointer - 1 ∧
     (Flat.execute isb st isb.BRT).2.stack = st.stack ∧
     (Flat.execute isb st isb.BRT).2.frame_pointer = st.frame_pointer ∧
     (st.stack st.stack_pointer ≠ 0 →
       (Flat.execute isb st isb.BRT).2.program_counter = target) ∧
     (st.stack st.stack_pointer = 0 →
       (Flat.execute isb st isb.BRT).2.program_counter = p + 2)) ∧
    ((Flat.execute isb st isb.BRF).1 = 1 ∧
     (Flat.execute isb st isb.BRF).2.stack_pointer = st.stack_pointer - 1 ∧
     (Flat.execute isb st isb.BRF).2.stack = st.stack ∧
     (Flat.execute isb st isb.BRF).2.frame_pointer = st.frame_pointer ∧
     (st.stack st.stack_pointer = 0 →
       (Flat.execute isb st isb.BRF).2.program_counter = target) ∧
     (st.stack st.stack_pointer ≠ 0 →
       (Flat.execute isb st isb.BRF).2.program_counter = p + 2)) := by
  rw [Full.execute_BRT isa h, Full.execute_BRF isa h, Flat.flat_execute_BRT isb hb,
    Flat.flat_execute_BRF isb hb]
  obtain ⟨a1, a2, a3, -, -, a6, a7⟩ := Full.branch_on_condition_effect state identity
  obtain ⟨b1, b2, b3, -, -, b6, b7⟩ := Full.branch_on_condition_effect state negate_as_binary
  obtain ⟨c1, c2, c3, -, -, c6, c7⟩ :=
    Flat.branch_branch_effect st (fun flag => decide (flag ≠ 0))
  obtain ⟨d1, d2, d3, -, -, d6, d7⟩ :=
    Flat.branch_branch_effect st (fun flag => decide (flag = 0))
  have q : p + 1 + 1 = p + 2 := by omega
  rw [hpc, htarget] at a6 b6
  rw [hpc, q] at a7 b7
  rw [hpc2, htarget2] at c6 d6
  rw [hpc2, q] at c7 d7
  refine ⟨⟨rfl, a1, a2, a3, ?_, ?_⟩, ⟨rfl, b1, b2, b3, ?_, ?_⟩,
    ⟨rfl, c1, c2, c3, ?_, ?_⟩, ⟨rfl, d1, d2, d3, ?_, ?_⟩⟩
  · intro hf; exact a6 hf
  · intro hf; exact a7 hf
  · intro hf; exact b6 (by simp [negate_as_binary, hf])
  · intro hf; exact b7 (by simp [negate_as_binary, hf])
  · intro hf; exact c6 (by simp [hf])
  · intro hf; exact c7 (by simp [hf])
  · intro hf; exact d6 (by simp [hf])
  · intro hf; exact d7 (by simp [hf])

/-- C4, at concrete states: operand 7, flag 1 (taken by `BRT`, not by `BRF`)
in both interpreters. -/
theorem branch_evaluation_witness :
    (Full.execute Full.sample_set (Full.sample_branch 1) Full.sample_set.BRT).2.program_counter = 7 ∧
    (Full.execute Full.sample_set (Full.sample_branch 1) Full.sample_set.BRF).2.program_counter = 0 + 2 ∧
    (Flat.execute Flat.sample_set (Flat.sample_branch 1) Flat.sample_set.BRT).2.program_counter = 7 ∧
    (Flat.execute Flat.sample_set (Flat.sample_branch 1) Flat.sample_set.BRF).2.program_counter = 0 + 2 :=
  have w := branch_evaluation Full.sample_set (by decide) Flat.sample_set (by decide)
    (Full.sample_branch 1) (Flat.sample_branch 1) 0 7 rfl rfl (by decide) rfl rfl (by decide)
  ⟨w.1.2.2.2.2.1 (by decide), w.2.1.2.2.2.2.2 (by decide),
   w.2.2.1.2.2.2.2.1 (by decide), w.2.2.2.2.2.2.2.2 (by decide)⟩

/-- A value in the `int` range is left alone by the 32-bit wrap. -/
theorem wrap_int_of_fits (x : Int) (h : fits_int x) : wrap_int x = x := by
  unfold fits_int at h
  unfold wrap_int
  omega

namespace Full

/-- The loop exits, with no fetch, as soon as its condition is false; no
fuel is needed for that. -/
theorem run_loop_exit (isa : instruction_set) (size : Int) (fuel : Nat) (ok : Int)
    (state : vm) (hc : ¬ loop_condition size ok state) :
    run_loop isa size fuel ok state = some ⟨0, ok, state⟩ := by
  cases fuel <;> simp [run_loop, hc]

/-- While the condition holds, the loop makes one iteration and goes on. -/
theorem run_loop_iter (isa : instruction_set) (size : Int) (fuel : Nat) (ok : Int)
    (state : vm) (hc : loop_condition size ok state) :
    run_loop isa size (fuel + 1) ok state =
      (run_loop isa size fuel (step isa state).1 (step isa state).2).map
        (fun r => { r with steps := r.steps + 1 }) := by
  simp [run_loop, hc]

/-- C5: for `a + b` in the `int` range, `run` on the words
`[ICONST, a, ICONST, b, IADD, HALT]` from entry offset 0, with a stack of at
least two words and whatever the block holds, stops after exactly four
iterations with `is_execution_successful = 1`, `is_running = 0` and the live
stack `[a + b]` (any fuel of at least 4 gives this result). -/
theorem run_add_program (isa : instruction_set) (h : isa.distinct) (a b : Int)
    (hsum : fits_int (a + b)) (instructions : Int → Int)
    (hload : loaded instructions [isa.ICONST, a, isa.ICONST, b, isa.IADD, isa.HALT])
    (stack_size : Int) (_hcap : 2 ≤ stack_size) (stack : Int → Int)
    (fuel : Nat) (hfuel : 4 ≤ fuel) :
    ∃ r, run isa fuel instructions 6 0 stack_size stack = some r ∧
      r.steps = 4 ∧ r.is_execution_successful = 1 ∧ r.state.is_running = 0 ∧
      print_stack r.state = [a + b] := by
  obtain ⟨k, rfl⟩ : ∃ k, fuel = k + 4 := ⟨fuel - 4, by omega⟩
  have i0 : instructions 0 = isa.ICONST := by simpa using hload 0 (by simp)
  have i1 : instructions 1 = a := by simpa using hload 1 (by simp)
  have i2 : instructions 2 = isa.ICONST := by simpa using hload 2 (by simp)
  have i3 : instructions 3 = b := by simpa using hload 3 (by simp)
  have i4 : instructions 4 = isa.IADD := by simpa using hload 4 (by simp)
  have i5 : instructions 5 = isa.HALT := by simpa using hload 5 (by simp)
  have eI := execute_ICONST isa
  have eA := execute_IADD isa h
  have eH := execute_HALT isa h
  simp [run, run_loop, loop_condition, initial_state, step, fetch, decode, i0, i1, i2, i3, i4, i5,
    eI, eA, eH, load_const, perform_binary_op, push, pop]
  refine ⟨_, run_loop_exit isa 6 k 1 _ (by simp [loop_condition]), rfl, rfl, rfl, ?_⟩
  have hw : wrap_int (b + a) = a + b := by
    rw [Int.add_comm b a]; exact wrap_int_of_fits _ hsum
  simp [print_stack, iadd, hw, List.range_succ]

end Full

namespace Full

/-- C5, the instance of the spec: `ICONST 3; ICONST 4; IADD; HALT` leaves
`[7]`. -/
theorem run_add_program_witness :
    ∃ r, run sample_set 4 (of_words [101, 3, 101, 4, 102, 115]) 6 0 2 (fun _ => 0) = some r ∧
      r.steps = 4 ∧ r.is_execution_successful = 1 ∧ r.state.is_running = 0 ∧
      print_stack r.state = [3 + 4] :=
  run_add_program sample_set (by decide) 3 4 (by decide) (of_words [101, 3, 101, 4, 102, 115])
    (by intro i hi
        have hi' : i < 6 := hi
        interval_cases i <;> rfl)
    2 (by decide) (fun _ => 0) 4 (by decide)

end Full

namespace Full

/-- C6, as stated, on the sample opcode numbering: with the operand 6 the
branch lands on word 6, the operand itself; 6 is no opcode there, so the run
stops after five iterations with `is_execution_successful = 0`, `is_running`
still 1 and an empty live stack. -/
theorem run_branch_program_counterexample :
    (run sample_set 20 (of_words (branch_words sample_set 6)) 13 0 2 (fun _ => 0)).map
      outcome.observe = some (5, 0, 1, 7, -1, []) := by
  rfl

/-- C6, amended: on the words of `ICONST 5; ICONST 5; IEQ; BRT target; ICONST
0; HALT; ICONST 1; HALT` from entry offset 0 the fourth iteration takes the
branch to the word index `target`, leaving the stack empty; with
`target = 10`, the word index of the second `ICONST`, the run goes through
`ICONST 1; HALT` and stops after six iterations, Halted with live stack
`[1]`. -/
theorem run_branch_program (isa : instruction_set) (h : isa.distinct) (target : Int)
    (instructions : Int → Int) (hload : loaded instructions (branch_words isa target))
    (stack_size : Int) (_hcap : 2 ≤ stack_size) (stack : Int → Int) :
    ((step isa (step isa (step isa (step isa
        (initial_state instructions 0 stack)).2).2).2).2.program_counter = target ∧
     (step isa (step isa (step isa (step isa
        (initial_state instructions 0 stack)).2).2).2).2.stack_pointer = -1) ∧
    (target = 10 → ∀ fuel, 6 ≤ fuel →
      ∃ r, run isa fuel instructions 13 0 stack_size stack = some r ∧
        r.steps = 6 ∧ r.is_execution_successful = 1 ∧ r.state.is_running = 0 ∧
        print_stack r.state = [1]) := by
  unfold branch_words at hload
  have i0 : instructions 0 = isa.ICONST := by simpa using hload 0 (by simp)
  have i1 : instructions 1 = 5 := by simpa using hload 1 (by simp)
  have i2 : instructions 2 = isa.ICONST := by simpa using hload 2 (by simp)
  have i3 : instructions 3 = 5 := by simpa using hload 3 (by simp)
  have i4 : instructions 4 = isa.IEQ := by simpa using hload 4 (by simp)
  have i5 : instructions 5 = isa.BRT := by simpa using hload 5 (by simp)
  have i6 : instructions 6 = target := by simpa using hload 6 (by simp)
  have i10 : instructions 10 = isa.ICONST := by simpa using hload 10 (by simp)
  have i11 : instructions 11 = 1 := by simpa using hload 11 (by simp)
  have i12 : instructions 12 = isa.HALT := by simpa using hload 12 (by simp)
  have eI := execute_ICONST isa
  have eE := execute_IEQ isa h
  have eB := execute_BRT isa h
  have eH := execute_HALT isa h
  refine ⟨?_, ?_⟩
  · simp [initial_state, step, fetch, decode, i0, i1, i2, i3, i4, i5, i6, eI, eE, eB,
      load_const, perform_binary_op, branch_on_condition, push, pop, ieq, identity]
  · intro ht fuel hfuel
    subst ht
    obtain ⟨k, rfl⟩ : ∃ k, fuel = k + 6 := ⟨fuel - 6, by omega⟩
    simp [run, run_loop, loop_condition, initial_state, step, fetch, decode, i0, i1, i2, i3, i4,
      i5, i6, i10, i11, i12, eI, eE, eB, eH, load_const, perform_binary_op,
      branch_on_condition, push, pop, ieq, identity]
    refine ⟨_, run_loop_exit isa 13 k 1 _ (by simp [loop_condition]), rfl, rfl, rfl, ?_⟩
    simp [print_stack, List.range_succ]

/-- C6 amended, on the sample opcode numbering with the operand 10. -/
theorem run_branch_program_witness :
    ∃ r, run sample_set 6 (of_words (branch_words sample_set 10)) 13 0 2 (fun _ => 0) = some r ∧
      r.steps = 6 ∧ r.is_execution_successful = 1 ∧ r.state.is_running = 0 ∧
      print_stack r.state = [1] :=
  (run_branch_program sample_set (by decide) 10 (of_words (branch_words sample_set 10))
    (by intro i hi
        have hi' : i < 13 := hi
        interval_cases i <;> rfl)
    2 (by decide) (fun _ => 0)).2 rfl 6 (by decide)

end Full

namespace Flat

/-- The loop exits, with no fetch, as soon as its condition is false; no
fuel is needed for that. -/
theorem flat_run_loop_exit (isa : instruction_set) (size : Int) (fuel : Nat) (ok : Int)
    (state : vm_state) (hc : ¬ loop_condition size ok state) :
    run_loop isa size fuel ok state = some ⟨0, ok, state⟩ := by
  cases fuel <;> simp [run_loop, hc]

/-- While the condition holds, the loop makes one iteration and goes on. -/
theorem flat_run_loop_iter (isa : instruction_set) (size : Int) (fuel : Nat) (ok : Int)
    (state : vm_state) (hc : loop_condition size ok state) :
    run_loop isa size (fuel + 1) ok state =
      (run_loop isa size fuel (step isa state).1 (step isa state).2).map
        (fun r => { r with steps := r.steps + 1 }) := by
  simp [run_loop, hc]

end Flat

namespace Full

/-- A word that is none of the case labels falls to the `default` case. -/
theorem execute_default (isa : instruction_set) (state : vm) (w : Int)
    (hw : w ∉ isa.labels) : execute isa state w = (0, state) := by
  unfold instruction_set.labels at hw
  simp only [List.mem_cons, List.mem_singleton, not_or] at hw
  obtain ⟨h0, h1, h2, h3, h4, h5, h6, h7, h8, h9, h10, h11, h12, h13, h14, -⟩ := hw
  unfold execute
  simp only [h0, h1, h2, h3, h4, h5, h6, h7, h8, h9, h10, h11, h12, h13, h14, if_false]

/-- C7: a fetched word `w` that is none of the opcode constants makes
`execute` return 0 with the state untouched; and the loop, entered in a
running state whose next word is `w`, exits after that single iteration with
`is_execution_successful = 0`, the state being the one the fetch left
(`program_counter` one further, `is_running` still nonzero), whatever the
stream holds and however much fuel remains. -/
theorem unknown_opcode_fatal (isa : instruction_set) (state : vm) (w : Int)
    (hw : w ∉ isa.labels) :
    execute isa state w = (0, state) ∧
    ∀ (size : Int) (fuel : Nat) (s : vm), s.is_running ≠ 0 → s.program_counter < size →
      s.instructions s.program_counter = w →
      run_loop isa size (fuel + 1) 1 s =
        some ⟨1, 0, { s with program_counter := s.program_counter + 1 }⟩ := by
  refine ⟨execute_default isa state w hw, ?_⟩
  intro size fuel s hr hlt hs
  have hc : loop_condition size 1 s := ⟨by decide, hr, hlt⟩
  have e : step isa s = (0, { s with program_counter := s.program_counter + 1 }) := by
    simp only [step, decode, fetch, hs]
    exact execute_default isa _ w hw
  rw [run_loop_iter isa size fuel 1 s hc, e,
    run_loop_exit isa size fuel 0 _ (by simp [loop_condition])]
  rfl

/-- C7, at a concrete state: the word 7 on the sample opcode numbering, in
the stream `[7, HALT]`. -/
theorem unknown_opcode_fatal_witness :
    execute sample_set sample_unknown 7 = (0, sample_unknown) ∧
    run_loop sample_set 2 (5 + 1) 1 sample_unknown =
      some ⟨1, 0, { sample_unknown with program_counter := 0 + 1 }⟩ :=
  have w := unknown_opcode_fatal sample_set sample_unknown 7 (by decide)
  ⟨w.1, w.2 2 5 sample_unknown (by decide) (by decide) rfl⟩

end Full

/-- C8: in both interpreters, when `program_counter` has reached or passed the
length of the stream at the top of the loop, with `is_execution_successful`
still 1, the loop exits at once, whatever fuel it has: no iteration is made,
`is_execution_successful` is still 1 and the state is returned as it is. -/
theorem off_end_is_normal (isa : Full.instruction_set) (isb : Flat.instruction_set)
    (size : Int) (fuel : Nat) (state : Full.vm) (st : Flat.vm_state)
    (hpc : size ≤ state.program_counter) (hpc2 : size ≤ st.program_counter) :
    Full.run_loop isa size fuel 1 state = some ⟨0, 1, state⟩ ∧
    Flat.run_loop isb size fuel 1 st = some ⟨0, 1, st⟩ := by
  refine ⟨Full.run_loop_exit isa size fuel 1 state ?_, Flat.flat_run_loop_exit isb size fuel 1 st ?_⟩
  · intro hc; exact absurd hc.2.2 (by omega)
  · intro hc; exact absurd hc.2.2 (by omega)

/-- C8, at concrete states: the stream `[ICONST, 7]` has been executed and
`program_counter` is 2, its length. -/
theorem off_end_is_normal_witness :
    Full.run_loop Full.sample_set 2 3 1 Full.sample_off_end =
      some ⟨0, 1, Full.sample_off_end⟩ ∧
    Flat.run_loop Flat.sample_set 2 3 1 Flat.sample_off_end =
      some ⟨0, 1, Flat.sample_off_end⟩ :=
  off_end_is_normal Full.sample_set Flat.sample_set 2 3 Full.sample_off_end
    Flat.sample_off_end (by decide) (by decide)

namespace Full

/-- Every case label makes `execute` return 1, in every state. -/
theorem execute_label_succeeds (isa : instruction_set) (state : vm) (w : Int)
    (hw : w ∈ isa.labels) : (execute isa state w).1 = 1 := by
  unfold execute
  by_cases h0 : w = isa.ICONST
  · rw [if_pos h0]
  rw [if_neg h0]
  by_cases h1 : w = isa.IADD
  · rw [if_pos h1]
  rw [if_neg h1]
  by_cases h2 : w = isa.ISUB
  · rw [if_pos h2]
  rw [if_neg h2]
  by_cases h3 : w = isa.IMUL
  · rw [if_pos h3]
  rw [if_neg h3]
  by_cases h4 : w = isa.ILT
  · rw [if_pos h4]
  rw [if_neg h4]
  by_cases h5 : w = isa.IGT
  · rw [if_pos h5]
  rw [if_neg h5]
  by_cases h6 : w = isa.IEQ
  · rw [if_pos h6]
  rw [if_neg h6]
  by_cases h7 : w = isa.INEQ
  · rw [if_pos h7]
  rw [if_neg h7]
  by_cases h8 : w = isa.BRT
  · rw [if_pos h8]
  rw [if_neg h8]
  by_cases h9 : w = isa.BRF
  · rw [if_pos h9]
  rw [if_neg h9]
  by_cases h10 : w = isa.CALL
  · rw [if_pos h10]
  rw [if_neg h10]
  by_cases h11 : w = isa.RET
  · rw [if_pos h11]
  rw [if_neg h11]
  by_cases h12 : w = isa.LOAD
  · rw [if_pos h12]
  rw [if_neg h12]
  by_cases h13 : w = isa.PRINT
  · rw [if_pos h13]
  rw [if_neg h13]
  by_cases h14 : w = isa.HALT
  · rw [if_pos h14]
  rw [if_neg h14]
  exfalso
  unfold instruction_set.labels at hw
  simp only [List.mem_cons, List.mem_singleton, List.not_mem_nil, or_false,
    h0, h1, h2, h3, h4, h5, h6, h7, h8, h9, h10, h11, h12, h13, h14] at hw

end Full

namespace Flat

/-- Every opcode constant makes `execute` return 1, in every state. -/
theorem flat_execute_label_succeeds (isa : instruction_set) (state : vm_state) (w : Int)
    (hw : w ∈ isa.labels) : (execute isa state w).1 = 1 := by
  unfold execute
  by_cases h0 : w = isa.ICONST
  · rw [if_pos h0]
  rw [if_neg h0]
  by_cases h1 : w = isa.IADD
  · rw [if_pos h1]
  rw [if_neg h1]
  by_cases h2 : w = isa.ISUB
  · rw [if_pos h2]
  rw [if_neg h2]
  by_cases h3 : w = isa.IMUL
  · rw [if_pos h3]
  rw [if_neg h3]
  by_cases h4 : w = isa.LT
  · rw [if_pos h4]
  rw [if_neg h4]
  by_cases h5 : w = isa.GT
  · rw [if_pos h5]
  rw [if_neg h5]
  by_cases h6 : w = isa.EQ
  · rw [if_pos h6]
  rw [if_neg h6]
  by_cases h7 : w = isa.NEQ
  · rw [if_pos h7]
  rw [if_neg h7]
  by_cases h8 : w = isa.BRT
  · rw [if_pos h8]
  rw [if_neg h8]
  by_cases h9 : w = isa.BRF
  · rw [if_pos h9]
  rw [if_neg h9]
  by_cases h10 : w = isa.CALL
  · rw [if_pos h10]
  rw [if_neg h10]
  by_cases h11 : w = isa.RET
  · rw [if_pos h11]
  rw [if_neg h11]
  by_cases h12 : w = isa.PRINT
  · rw [if_pos h12]
  rw [if_neg h12]
  by_cases h13 : w = isa.HALT
  · rw [if_pos h13]
  rw [if_neg h13]
  exfalso
  unfold instruction_set.labels at hw
  simp only [List.mem_cons, List.mem_singleton, List.not_mem_nil, or_false,
    h0, h1, h2, h3, h4, h5, h6, h7, h8, h9, h10, h11, h12, h13] at hw

end Flat

/-- C9, as stated, at concrete states: with a stack block of two words and
`stack_pointer = 1`, `push` returns 1 and moves `stack_pointer` to 2, and the
run of `ICONST 9; HALT` ends after two iterations with
`is_execution_successful = 1`, Halted; with `stack_pointer = -1`, `pop` moves
`stack_pointer` to -2 and the run of `IADD; HALT` ends with
`is_execution_successful = 1`, Halted, in both interpreters. -/
theorem stack_faults_counterexample :
    ((Full.push Full.sample_full_stack 9).1 = 1 ∧
     (Full.push Full.sample_full_stack 9).2.stack_pointer = 2 ∧
     (Full.run_loop Full.sample_set 3 5 1 Full.sample_full_stack).map Full.outcome.observe =
       some (2, 1, 0, 3, 2, [1, 2, 9])) ∧
    ((Full.pop Full.sample_empty_stack).2.stack_pointer = -2 ∧
     (Full.run_loop Full.sample_set 2 5 1 Full.sample_empty_stack).map Full.outcome.observe =
       some (2, 1, 0, 2, -2, [])) ∧
    ((Flat.pop Flat.sample_empty_stack).2.stack_pointer = -2 ∧
     (Flat.run_loop Flat.sample_set 2 5 1 Flat.sample_empty_stack).map Flat.outcome.observe =
       some (2, 1, 0, 2, -2, [])) := by
  refine ⟨⟨rfl, rfl, rfl⟩, ⟨rfl, rfl⟩, rfl, rfl⟩

/-- C9, amended: in both interpreters the stack primitives have no failure
case. In every state, whatever `stack_pointer` is, `push` returns 1, moves
`stack_pointer` up by one and writes the value there; `pop` returns the cell
at `stack_pointer` and moves it down by one; `peek` returns that cell; and
`execute` returns 1 on every opcode constant, so that no stack depth makes
the loop stop with `is_execution_successful = 0`. -/
theorem no_stack_fault (isa : Full.instruction_set) (isb : Flat.instruction_set) :
    (∀ (state : Full.vm) (value : Int),
      (Full.push state value).1 = 1 ∧
      (Full.push state value).2.stack_pointer = state.stack_pointer + 1 ∧
      (Full.push state value).2.stack (state.stack_pointer + 1) = value) ∧
    (∀ state : Full.vm,
      (Full.pop state).1 = state.stack state.stack_pointer ∧
      (Full.pop state).2.stack_pointer = state.stack_pointer - 1 ∧
      Full.peek state = state.stack state.stack_pointer) ∧
    (∀ (state : Full.vm) (w : Int), w ∈ isa.labels → (Full.execute isa state w).1 = 1) ∧
    (∀ (st : Flat.vm_state) (value : Int),
      (Flat.push st value).1 = 1 ∧
      (Flat.push st value).2.stack_pointer = st.stack_pointer + 1 ∧
      (Flat.push st value).2.stack (st.stack_pointer + 1) = value) ∧
    (∀ st : Flat.vm_state,
      (Flat.pop st).1 = st.stack st.stack_pointer ∧
      (Flat.pop st).2.stack_pointer = st.stack_pointer - 1 ∧
      Flat.peek st = st.stack st.stack_pointer) ∧
    (∀ (st : Flat.vm_state) (w : Int), w ∈ isb.labels → (Flat.execute isb st w).1 = 1) := by
  refine ⟨?_, ?_, Full.execute_label_succeeds isa, ?_, ?_, Flat.flat_execute_label_succeeds isb⟩
  · intro state value
    simp [Full.push]
  · intro state
    exact ⟨rfl, rfl, rfl⟩
  · intro st value
    simp [Flat.push]
  · intro st
    exact ⟨rfl, rfl, rfl⟩

/-- C9 amended, at the full and the empty sample stacks: `ICONST` and `IADD`
return 1 there. -/
theorem no_stack_fault_witness :
    (Full.execute Full.sample_set Full.sample_full_stack Full.sample_set.ICONST).1 = 1 ∧
    (Full.execute Full.sample_set Full.sample_empty_stack Full.sample_set.IADD).1 = 1 ∧
    (Flat.execute Flat.sample_set Flat.sample_empty_stack Flat.sample_set.IADD).1 = 1 :=
  have w := no_stack_fault Full.sample_set Flat.sample_set
  ⟨w.2.2.1 Full.sample_full_stack _ (by decide), w.2.2.1 Full.sample_empty_stack _ (by decide),
   w.2.2.2.2.2 Flat.sample_empty_stack _ (by decide)⟩

namespace Full

/-- C10, as stated, at a concrete input: the stream `[HALT]` of length 1
entered at `entry_point = 1`; `run` makes no iteration and stops with
`is_execution_successful = 1` and `is_running = 1`, even with no fuel. -/
theorem entry_out_of_range_counterexample :
    (run sample_set 0 (of_words [115]) 1 1 1 (fun _ => 0)).map outcome.observe =
      some (0, 1, 1, 1, -1, []) := by
  rfl

/-- C10, amended: with `entry_point` at or past the length `L`, `run` makes
no iteration (no fetch, no instruction) and its loop exits at once with
`is_execution_successful = 1` and the initial state; with `entry_point < 0`
the loop is entered and its first iteration executes the word
`instructions[entry_point]`, fetched with no range check. -/
theorem entry_out_of_range (isa : instruction_set) (fuel : Nat) (instructions : Int → Int)
    (L entry_point stack_size : Int) (stack : Int → Int) :
    (L ≤ entry_point →
      run isa fuel instructions L entry_point stack_size stack =
        some ⟨0, 1, initial_state instructions entry_point stack⟩) ∧
    (entry_point < 0 → 0 ≤ L →
      run isa (fuel + 1) instructions L entry_point stack_size stack =
        (run_loop isa L fuel
          (execute isa (initial_state instructions (entry_point + 1) stack)
            (instructions entry_point)).1
          (execute isa (initial_state instructions (entry_point + 1) stack)
            (instructions entry_point)).2).map
          (fun r => { r with steps := r.steps + 1 })) := by
  refine ⟨?_, ?_⟩
  · intro hle
    exact run_loop_exit isa L fuel 1 _ (fun hc => absurd hc.2.2 (by
      show ¬ entry_point < L
      omega))
  · intro hneg hL
    have hc : loop_condition L 1 (initial_state instructions entry_point stack) :=
      ⟨by decide, by show (1 : Int) ≠ 0; decide, by show entry_point < L; omega⟩
    exact run_loop_iter isa L fuel 1 _ hc

/-- C10 amended, at concrete inputs: the stream `[HALT]` entered at 1, and at
-1 where the cell read holds 0, no opcode of the sample numbering. -/
theorem entry_out_of_range_witness :
    run sample_set 0 (of_words [115]) 1 1 1 (fun _ => 0) =
      some ⟨0, 1, initial_state (of_words [115]) 1 (fun _ => 0)⟩ ∧
    (run sample_set (0 + 1) (of_words [115]) 1 (-1) 1 (fun _ => 0)).map outcome.observe =
      some (1, 0, 1, 0, -1, []) :=
  have w := entry_out_of_range sample_set 0 (of_words [115]) 1 1 1 (fun _ => 0)
  have v := entry_out_of_range sample_set 0 (of_words [115]) 1 (-1) 1 (fun _ => 0)
  ⟨w.1 (by decide), by rw [v.2 (by decide) (by decide)]; rfl⟩

end Full

namespace Full

/-- What `load_const_rel_to_frame` leaves. -/
theorem load_rel_effect (state : vm) :
    (load_const_rel_to_frame state).stack_pointer = state.stack_pointer + 1 ∧
    (load_const_rel_to_frame state).program_counter = state.program_counter + 1 ∧
    (load_const_rel_to_frame state).frame_pointer = state.frame_pointer ∧
    (load_const_rel_to_frame state).is_running = state.is_running ∧
    (load_const_rel_to_frame state).instructions = state.instructions ∧
    (∀ i, (load_const_rel_to_frame state).stack i =
      if i = state.stack_pointer + 1 then
        state.stack (state.frame_pointer + state.instructions state.program_counter)
      else state.stack i) :=
  ⟨rfl, rfl, rfl, rfl, rfl, fun _ => rfl⟩

/-- C11: with `program_counter` just after a `LOAD` opcode at word `p` whose
operand is `k`, and `0 ≤ f + k ≤ s`, executing `LOAD` succeeds, pushes the
value of `stack[f + k]` (the new top, at `s + 1`), leaves `program_counter`
at `p + 2`, and changes neither `frame_pointer` nor any slot `0..s`. -/
theorem load_step (isa : instruction_set) (h : isa.distinct) (state : vm) (p k : Int)
    (hpc : state.program_counter = p + 1) (hk : state.instructions (p + 1) = k)
    (_hrange : 0 ≤ state.frame_pointer + k ∧ state.frame_pointer + k ≤ state.stack_pointer) :
    (execute isa state isa.LOAD).1 = 1 ∧
    peek (execute isa state isa.LOAD).2 = state.stack (state.frame_pointer + k) ∧
    (execute isa state isa.LOAD).2.stack_pointer = state.stack_pointer + 1 ∧
    (execute isa state isa.LOAD).2.program_counter = p + 2 ∧
    (execute isa state isa.LOAD).2.frame_pointer = state.frame_pointer ∧
    (∀ i, i ≤ state.stack_pointer →
      (execute isa state isa.LOAD).2.stack i = state.stack i) := by
  rw [execute_LOAD isa h]
  obtain ⟨e1, e2, e3, -, -, e6⟩ := load_rel_effect state
  rw [hpc, hk] at e6
  refine ⟨rfl, ?_, e1, ?_, e3, ?_⟩
  · show (load_const_rel_to_frame state).stack (load_const_rel_to_frame state).stack_pointer = _
    rw [e1, e6, if_pos rfl]
  · show (load_const_rel_to_frame state).program_counter = _
    rw [e2, hpc]; omega
  · intro i hi
    show (load_const_rel_to_frame state).stack i = _
    rw [e6, if_neg (by omega)]

/-- C11, at a concrete callee state: `LOAD -3` with `frame_pointer = 4` pushes
the last argument, 20. -/
theorem load_step_witness :
    peek (execute sample_set sample_load sample_set.LOAD).2 = 20 ∧
    (execute sample_set sample_load sample_set.LOAD).2.stack_pointer = 4 + 1 ∧
    (execute sample_set sample_load sample_set.LOAD).2.program_counter = 0 + 2 ∧
    (execute sample_set sample_load sample_set.LOAD).2.frame_pointer = 4 :=
  have w := load_step sample_set (by decide) sample_load 0 (-3) rfl rfl (by decide)
  ⟨w.2.1, w.2.2.1, w.2.2.2.1, w.2.2.2.2.1⟩

end Full

namespace Full

/-- A run of pushes moves `stack_pointer` up by their number and writes no
slot at or below the old top. -/
theorem push_all_below (values : List Int) :
    ∀ state : vm, (push_all state values).stack_pointer =
        state.stack_pointer + values.length ∧
      (∀ i, i ≤ state.stack_pointer → (push_all state values).stack i = state.stack i) := by
  induction values with
  | nil => intro state; exact ⟨by simp [push_all], fun _ _ => rfl⟩
  | cons v vs ih =>
    intro state
    obtain ⟨h1, h2⟩ := ih (push state v).2
    have e : push_all state (v :: vs) = push_all (push state v).2 vs := rfl
    have sp : (push state v).2.stack_pointer = state.stack_pointer + 1 := rfl
    rw [e]
    refine ⟨?_, ?_⟩
    · rw [h1, sp, List.length_cons]; push_cast; omega
    · intro i hi
      rw [h2 i (by rw [sp]; omega)]
      show (if i = state.stack_pointer + 1 then v else state.stack i) = _
      rw [if_neg (by omega)]

/-- The slot written by the `j`-th push of a run (counted from 0) holds the
`j`-th value. -/
theorem push_all_slot (values : List Int) :
    ∀ (state : vm) (j : Nat), j < values.length →
      (push_all state values).stack (state.stack_pointer + 1 + j) = values.getD j 0 := by
  induction values with
  | nil => intro state j hj; simp at hj
  | cons v vs ih =>
    intro state j hj
    have e : push_all state (v :: vs) = push_all (push state v).2 vs := rfl
    have sp : (push state v).2.stack_pointer = state.stack_pointer + 1 := rfl
    rw [e]
    cases j with
    | zero =>
      rw [(push_all_below vs (push state v).2).2 _ (by rw [sp]; simp)]
      show (if state.stack_pointer + 1 + ((0 : Nat) : Int) = state.stack_pointer + 1 then v
        else state.stack _) = _
      rw [if_pos (by simp)]
      rfl
    | succ j =>
      have hj2 : j < vs.length := by simpa using hj
      have := ih (push state v).2 j hj2
      rw [sp] at this
      have idx : state.stack_pointer + 1 + ((j + 1 : Nat) : Int) =
          state.stack_pointer + 1 + 1 + (j : Int) := by push_cast; omega
      rw [idx, this]
      rfl

/-- One more pop in a run is a pop after the shorter run. -/
theorem pop_n_succ_last (k : Nat) :
    ∀ state : vm, pop_n (k + 1) state =
      ((pop_n k state).1 ++ [(pop (pop_n k state).2).1], (pop (pop_n k state).2).2) := by
  induction k with
  | zero => intro state; rfl
  | succ k ih =>
    intro state
    have e : pop_n (k + 1 + 1) state =
        ((pop state).1 :: (pop_n (k + 1) (pop state).2).1,
         (pop_n (k + 1) (pop state).2).2) := rfl
    rw [e, ih (pop state).2]
    rfl

/-- After a run of pushes, as many pops return the values in reverse order
and leave `stack_pointer` and the slots up to it as they were. -/
theorem pop_n_push_all (values : List Int) :
    ∀ state : vm,
      (pop_n values.length (push_all state values)).1 = values.reverse ∧
      (pop_n values.length (push_all state values)).2.stack_pointer = state.stack_pointer ∧
      (∀ i, i ≤ state.stack_pointer →
        (pop_n values.length (push_all state values)).2.stack i = state.stack i) := by
  induction values with
  | nil => intro state; exact ⟨rfl, rfl, fun _ _ => rfl⟩
  | cons v vs ih =>
    intro state
    obtain ⟨h1, h2, h3⟩ := ih (push state v).2
    have e : push_all state (v :: vs) = push_all (push state v).2 vs := rfl
    have sp : (push state v).2.stack_pointer = state.stack_pointer + 1 := rfl
    rw [e, List.length_cons, pop_n_succ_last]
    rw [sp] at h2 h3
    refine ⟨?_, ?_, ?_⟩
    · show (pop_n vs.length (push_all (push state v).2 vs)).1 ++
        [(pop_n vs.length (push_all (push state v).2 vs)).2.stack
          (pop_n vs.length (push_all (push state v).2 vs)).2.stack_pointer] = _
      rw [h1, h2, h3 _ (le_refl _), List.reverse_cons]
      show vs.reverse ++ [if state.stack_pointer + 1 = state.stack_pointer + 1 then v
        else state.stack _] = _
      rw [if_pos rfl]
    · show (pop_n vs.length (push_all (push state v).2 vs)).2.stack_pointer - 1 = _
      rw [h2]; omega
    · intro i hi
      show (pop_n vs.length (push_all (push state v).2 vs)).2.stack i = _
      rw [h3 i (by omega)]
      show (if i = state.stack_pointer + 1 then v else state.stack i) = _
      rw [if_neg (by omega)]

end Full

namespace Flat

/-- A run of pushes moves `stack_pointer` up by their number and writes no
slot at or below the old top. -/
theorem flat_push_all_below (values : List Int) :
    ∀ state : vm_state, (push_all state values).stack_pointer =
        state.stack_pointer + values.length ∧
      (∀ i, i ≤ state.stack_pointer → (push_all state values).stack i = state.stack i) := by
  induction values with
  | nil => intro state; exact ⟨by simp [push_all], fun _ _ => rfl⟩
  | cons v vs ih =>
    intro state
    obtain ⟨h1, h2⟩ := ih (push state v).2
    have e : push_all state (v :: vs) = push_all (push state v).2 vs := rfl
    have sp : (push state v).2.stack_pointer = state.stack_pointer + 1 := rfl
    rw [e]
    refine ⟨?_, ?_⟩
    · rw [h1, sp, List.length_cons]; push_cast; omega
    · intro i hi
      rw [h2 i (by rw [sp]; omega)]
      show (if i = state.stack_pointer + 1 then v else state.stack i) = _
      rw [if_neg (by omega)]

/-- The slot written by the `j`-th push of a run (counted from 0) holds the
`j`-th value. -/
theorem flat_push_all_slot (values : List Int) :
    ∀ (state : vm_state) (j : Nat), j < values.length →
      (push_all state values).stack (state.stack_pointer + 1 + j) = values.getD j 0 := by
  induction values with
  | nil => intro state j hj; simp at hj
  | cons v vs ih =>
    intro state j hj
    have e : push_all state (v :: vs) = push_all (push state v).2 vs := rfl
    have sp : (push state v).2.stack_pointer = state.stack_pointer + 1 := rfl
    rw [e]
    cases j with
    | zero =>
      rw [(flat_push_all_below vs (push state v).2).2 _ (by rw [sp]; simp)]
      show (if state.stack_pointer + 1 + ((0 : Nat) : Int) = state.stack_pointer + 1 then v
        else state.stack _) = _
      rw [if_pos (by simp)]
      rfl
    | succ j =>
      have hj2 : j < vs.length := by simpa using hj
      have := ih (push state v).2 j hj2
      rw [sp] at this
      have idx : state.stack_pointer + 1 + ((j + 1 : Nat) : Int) =
          state.stack_pointer + 1 + 1 + (j : Int) := by push_cast; omega
      rw [idx, this]
      rfl

/-- One more pop in a run is a pop after the shorter run. -/
theorem flat_pop_n_succ_last (k : Nat) :
    ∀ state : vm_state, pop_n (k + 1) state =
      ((pop_n k state).1 ++ [(pop (pop_n k state).2).1], (pop (pop_n k state).2).2) := by
  induction k with
  | zero => intro state; rfl
  | succ k ih =>
    intro state
    have e : pop_n (k + 1 + 1) state =
        ((pop state).1 :: (pop_n (k + 1) (pop state).2).1,
         (pop_n (k + 1) (pop state).2).2) := rfl
    rw [e, ih (pop state).2]
    rfl

/-- After a run of pushes, as many pops return the values in reverse order
and leave `stack_pointer` and the slots up to it as they were. -/
theorem flat_pop_n_push_all (values : List Int) :
    ∀ state : vm_state,
      (pop_n values.length (push_all state values)).1 = values.reverse ∧
      (pop_n values.length (push_all state values)).2.stack_pointer = state.stack_pointer ∧
      (∀ i, i ≤ state.stack_pointer →
        (pop_n values.length (push_all state values)).2.stack i = state.stack i) := by
  induction values with
  | nil => intro state; exact ⟨rfl, rfl, fun _ _ => rfl⟩
  | cons v vs ih =>
    intro state
    obtain ⟨h1, h2, h3⟩ := ih (push state v).2
    have e : push_all state (v :: vs) = push_all (push state v).2 vs := rfl
    have sp : (push state v).2.stack_pointer = state.stack_pointer + 1 := rfl
    rw [e, List.length_cons, flat_pop_n_succ_last]
    rw [sp] at h2 h3
    refine ⟨?_, ?_, ?_⟩
    · show (pop_n vs.length (push_all (push state v).2 vs)).1 ++
        [(pop_n vs.length (push_all (push state v).2 vs)).2.stack
          (pop_n vs.length (push_all (push state v).2 vs)).2.stack_pointer] = _
      rw [h1, h2, h3 _ (le_refl _), List.reverse_cons]
      show vs.reverse ++ [if state.stack_pointer + 1 = state.stack_pointer + 1 then v
        else state.stack _] = _
      rw [if_pos rfl]
    · show (pop_n vs.length (push_all (push state v).2 vs)).2.stack_pointer - 1 = _
      rw [h2]; omega
    · intro i hi
      show (pop_n vs.length (push_all (push state v).2 vs)).2.stack i = _
      rw [h3 i (by omega)]
      show (if i = state.stack_pointer + 1 then v else state.stack i) = _
      rw [if_neg (by omega)]

end Flat

/-- C12: in both interpreters, for a state with `-1 ≤ stack_pointer <
capacity - 1`, `pop` after `push v` returns `v` and leaves `stack_pointer` and
every slot up to it as before the push; and after pushing `values` one after
the other within capacity, as many pops return them last first, again
leaving `stack_pointer` and the slots up to it as before. -/
theorem lifo_law (capacity : Int) (state : Full.vm) (st : Flat.vm_state) (v : Int)
    (values : List Int)
    (_hsp : -1 ≤ state.stack_pointer ∧ state.stack_pointer < capacity - 1)
    (_hcap : state.stack_pointer + values.length < capacity)
    (_hsp2 : -1 ≤ st.stack_pointer ∧ st.stack_pointer < capacity - 1)
    (_hcap2 : st.stack_pointer + values.length < capacity) :
    ((Full.pop (Full.push state v).2).1 = v ∧
     (Full.pop (Full.push state v).2).2.stack_pointer = state.stack_pointer ∧
     (∀ i, i ≤ state.stack_pointer →
       (Full.pop (Full.push state v).2).2.stack i = state.stack i)) ∧
    ((Full.pop_n values.length (Full.push_all state values)).1 = values.reverse ∧
     (Full.pop_n values.length (Full.push_all state values)).2.stack_pointer =
       state.stack_pointer ∧
     (∀ i, i ≤ state.stack_pointer →
       (Full.pop_n values.length (Full.push_all state values)).2.stack i = state.stack i)) ∧
    ((Flat.pop (Flat.push st v).2).1 = v ∧
     (Flat.pop (Flat.push st v).2).2.stack_pointer = st.stack_pointer ∧
     (∀ i, i ≤ st.stack_pointer →
       (Flat.pop (Flat.push st v).2).2.stack i = st.stack i)) ∧
    ((Flat.pop_n values.length (Flat.push_all st values)).1 = values.reverse ∧
     (Flat.pop_n values.length (Flat.push_all st values)).2.stack_pointer =
       st.stack_pointer ∧
     (∀ i, i ≤ st.stack_pointer →
       (Flat.pop_n values.length (Flat.push_all st values)).2.stack i = st.stack i)) := by
  refine ⟨⟨?_, ?_, ?_⟩, Full.pop_n_push_all values state, ⟨?_, ?_, ?_⟩,
    Flat.flat_pop_n_push_all values st⟩
  · simp [Full.pop, Full.push]
  · simp [Full.pop, Full.push]
  · intro i hi
    show (if i = state.stack_pointer + 1 then v else state.stack i) = _
    rw [if_neg (by omega)]
  · simp [Flat.pop, Flat.push]
  · simp [Flat.pop, Flat.push]
  · intro i hi
    show (if i = st.stack_pointer + 1 then v else st.stack i) = _
    rw [if_neg (by omega)]

/-- C12, at concrete states: on the stack `[5, 3]` of a block of eight words,
pushing 7 and popping gives 7, pushing 7, 8, 9 and popping three times gives
9, 8, 7. -/
theorem lifo_law_witness :
    (Full.pop (Full.push Full.sample_operands 7).2).1 = 7 ∧
    (Full.pop_n 3 (Full.push_all Full.sample_operands [7, 8, 9])).1 = [9, 8, 7] ∧
    (Flat.pop (Flat.push Flat.sample_operands 7).2).1 = 7 ∧
    (Flat.pop_n 3 (Flat.push_all Flat.sample_operands [7, 8, 9])).1 = [9, 8, 7] :=
  have w := lifo_law 8 Full.sample_operands Flat.sample_operands 7 [7, 8, 9]
    (by decide) (by decide) (by decide) (by decide)
  ⟨w.1.1, w.2.1.1, w.2.2.1.1, w.2.2.2.1⟩

namespace Full

/-- The value `perform_binary_op` leaves on top: `op` of the first-popped and
the second-popped value. -/
theorem peek_perform_binary_op (state : vm) (op : Int → Int → Int) :
    peek (perform_binary_op state op) =
      op (state.stack state.stack_pointer) (state.stack (state.stack_pointer - 1)) := by
  simp [peek, perform_binary_op, push, pop]

/-- The registers `perform_binary_op` leaves. -/
theorem perform_binary_op_registers (state : vm) (op : Int → Int → Int) :
    (perform_binary_op state op).stack_pointer = state.stack_pointer - 1 ∧
    (perform_binary_op state op).program_counter = state.program_counter ∧
    (perform_binary_op state op).frame_pointer = state.frame_pointer ∧
    (perform_binary_op state op).is_running = state.is_running ∧
    (perform_binary_op state op).instructions = state.instructions := by
  refine ⟨?_, rfl, rfl, rfl, rfl⟩
  show state.stack_pointer - 1 - 1 + 1 = _
  omega

end Full

namespace Flat

/-- The value an arithmetic or comparison branch leaves on top: `f` of the
second-popped and the first-popped value. -/
theorem flat_peek_binary_branch (state : vm_state) (f : Int → Int → Int) :
    peek (binary_branch state f) =
      f (state.stack (state.stack_pointer - 1)) (state.stack state.stack_pointer) := by
  simp [peek, binary_branch, push, pop]

end Flat

/-- C13: in both interpreters, with `x` below `y` on top of the stack, each
of `ILT`, `IGT`, `IEQ`, `INEQ` leaves 0 or 1 on top; `IEQ` leaves 1 exactly
when `x = y`, `INEQ` exactly when `x ≠ y`, and the two results add up to 1. -/
theorem comparison_results (isa : Full.instruction_set) (h : isa.distinct)
    (isb : Flat.instruction_set) (hb : isb.distinct)
    (state : Full.vm) (st : Flat.vm_state) (x y : Int)
    (_hdepth : 1 ≤ state.stack_pointer) (hx : state.stack (state.stack_pointer - 1) = x)
    (hy : state.stack state.stack_pointer = y)
    (_hdepth2 : 1 ≤ st.stack_pointer) (hx2 : st.stack (st.stack_pointer - 1) = x)
    (hy2 : st.stack st.stack_pointer = y) :
    ((Full.peek (Full.execute isa state isa.ILT).2 = 0 ∨
        Full.peek (Full.execute isa state isa.ILT).2 = 1) ∧
     (Full.peek (Full.execute isa state isa.IGT).2 = 0 ∨
        Full.peek (Full.execute isa state isa.IGT).2 = 1) ∧
     (Full.peek (Full.execute isa state isa.IEQ).2 = 0 ∨
        Full.peek (Full.execute isa state isa.IEQ).2 = 1) ∧
     (Full.peek (Full.execute isa state isa.INEQ).2 = 0 ∨
        Full.peek (Full.execute isa state isa.INEQ).2 = 1) ∧
     (Full.peek (Full.execute isa state isa.IEQ).2 = 1 ↔ x = y) ∧
     (Full.peek (Full.execute isa state isa.INEQ).2 = 1 ↔ x ≠ y) ∧
     Full.peek (Full.execute isa state isa.IEQ).2 +
       Full.peek (Full.execute isa state isa.INEQ).2 = 1) ∧
    ((Flat.peek (Flat.execute isb st isb.LT).2 = 0 ∨
        Flat.peek (Flat.execute isb st isb.LT).2 = 1) ∧
     (Flat.peek (Flat.execute isb st isb.GT).2 = 0 ∨
        Flat.peek (Flat.execute isb st isb.GT).2 = 1) ∧
     (Flat.peek (Flat.execute isb st isb.EQ).2 = 0 ∨
        Flat.peek (Flat.execute isb st isb.EQ).2 = 1) ∧
     (Flat.peek (Flat.execute isb st isb.NEQ).2 = 0 ∨
        Flat.peek (Flat.execute isb st isb.NEQ).2 = 1) ∧
     (Flat.peek (Flat.execute isb st isb.EQ).2 = 1 ↔ x = y) ∧
     (Flat.peek (Flat.execute isb st isb.NEQ).2 = 1 ↔ x ≠ y) ∧
     Flat.peek (Flat.execute isb st isb.EQ).2 +
       Flat.peek (Flat.execute isb st isb.NEQ).2 = 1) := by
  rw [Full.execute_ILT isa h, Full.execute_IGT isa h, Full.execute_IEQ isa h,
    Full.execute_INEQ isa h, Flat.flat_execute_LT isb hb, Flat.flat_execute_GT isb hb,
    Flat.flat_execute_EQ isb hb, Flat.flat_execute_NEQ isb hb]
  simp only [Full.peek_perform_binary_op, Flat.flat_peek_binary_branch, hx, hy, hx2, hy2]
  unfold ilt igt ieq ineq
  refine ⟨⟨?_, ?_, ?_, ?_, ?_, ?_, ?_⟩, ?_, ?_, ?_, ?_, ?_, ?_, ?_⟩
  all_goals split_ifs <;> simp_all <;> omega

/-- C13, at concrete states: 5 below 3. -/
theorem comparison_results_witness :
    Full.peek (Full.execute Full.sample_set Full.sample_operands Full.sample_set.IEQ).2 +
      Full.peek (Full.execute Full.sample_set Full.sample_operands Full.sample_set.INEQ).2 = 1 ∧
    Flat.peek (Flat.execute Flat.sample_set Flat.sample_operands Flat.sample_set.EQ).2 +
      Flat.peek (Flat.execute Flat.sample_set Flat.sample_operands Flat.sample_set.NEQ).2 = 1 :=
  have w := comparison_results Full.sample_set (by decide) Flat.sample_set (by decide)
    Full.sample_operands Flat.sample_operands 5 3 (by decide) rfl rfl (by decide) rfl rfl
  ⟨w.1.2.2.2.2.2.2, w.2.2.2.2.2.2.2⟩

namespace Full

/-- One loop iteration executes the word at `program_counter` in the state
the fetch leaves. -/
theorem step_eq (isa : instruction_set) (state : vm) :
    step isa state =
      execute isa { state with program_counter := state.program_counter + 1 }
        (state.instructions state.program_counter) := rfl

/-- The registers one iteration leaves at an arithmetic or comparison
opcode handled by `perform_binary_op`. -/
theorem step_binary_registers (isa : instruction_set) (state : vm) (w : Int)
    (op : Int → Int → Int)
    (he : ∀ s : vm, execute isa s w = (1, perform_binary_op s op))
    (hop : state.instructions state.program_counter = w) :
    (step isa state).2.program_counter = state.program_counter + 1 ∧
    (step isa state).2.stack_pointer = state.stack_pointer - 1 := by
  rw [step_eq, hop, he]
  exact ⟨rfl, (perform_binary_op_registers _ op).1⟩

/-- C14: one iteration at word `p`, by opcode: `ICONST` and `LOAD` leave
`program_counter = p + 2` and one more value; the seven arithmetic and
comparison opcodes leave `p + 1` and one value fewer; `BRT` on a zero flag and
`BRF` on a nonzero flag (branch not taken) leave `p + 2` and one value fewer;
`PRINT` and `HALT` leave `p + 1` and the same depth; `CALL` leaves three more
values, the top one being the resume address `p + 3`. -/
theorem arity_and_stack_effect (isa : instruction_set) (h : isa.distinct) (state : vm)
    (p : Int) (hpc : state.program_counter = p) :
    (state.instructions p = isa.ICONST →
      (step isa state).2.program_counter = p + 2 ∧
      (step isa state).2.stack_pointer = state.stack_pointer + 1) ∧
    ((state.instructions p = isa.IADD ∨ state.instructions p = isa.ISUB ∨
      state.instructions p = isa.IMUL ∨ state.instructions p = isa.ILT ∨
      state.instructions p = isa.IGT ∨ state.instructions p = isa.IEQ ∨
      state.instructions p = isa.INEQ) →
      (step isa state).2.program_counter = p + 1 ∧
      (step isa state).2.stack_pointer = state.stack_pointer - 1) ∧
    (state.instructions p = isa.BRT → state.stack state.stack_pointer = 0 →
      (step isa state).2.program_counter = p + 2 ∧
      (step isa state).2.stack_pointer = state.stack_pointer - 1) ∧
    (state.instructions p = isa.BRF → state.stack state.stack_pointer ≠ 0 →
      (step isa state).2.program_counter = p + 2 ∧
      (step isa state).2.stack_pointer = state.stack_pointer - 1) ∧
    (state.instructions p = isa.LOAD →
      (step isa state).2.program_counter = p + 2 ∧
      (step isa state).2.stack_pointer = state.stack_pointer + 1) ∧
    (state.instructions p = isa.PRINT →
      (step isa state).2.program_counter = p + 1 ∧
      (step isa state).2.stack_pointer = state.stack_pointer) ∧
    (state.instructions p = isa.HALT →
      (step isa state).2.program_counter = p + 1 ∧
      (step isa state).2.stack_pointer = state.stack_pointer) ∧
    (state.instructions p = isa.CALL →
      (step isa state).2.stack_pointer = state.stack_pointer + 3 ∧
      peek (step isa state).2 = p + 3) := by
  subst hpc
  refine ⟨?_, ?_, ?_, ?_, ?_, ?_, ?_, ?_⟩
  · intro hop
    rw [step_eq, hop, execute_ICONST]
    exact ⟨by show state.program_counter + 1 + 1 = _; omega, rfl⟩
  · intro hop
    rcases hop with hop | hop | hop | hop | hop | hop | hop
    · exact step_binary_registers isa state _ iadd (execute_IADD isa h) hop
    · exact step_binary_registers isa state _ isub (execute_ISUB isa h) hop
    · exact step_binary_registers isa state _ imul (execute_IMUL isa h) hop
    · exact step_binary_registers isa state _ ilt (execute_ILT isa h) hop
    · exact step_binary_registers isa state _ igt (execute_IGT isa h) hop
    · exact step_binary_registers isa state _ ieq (execute_IEQ isa h) hop
    · exact step_binary_registers isa state _ ineq (execute_INEQ isa h) hop
  · intro hop hflag
    rw [step_eq, hop, execute_BRT isa h]
    obtain ⟨b1, -, -, -, -, -, b7⟩ := branch_on_condition_effect
      { state with program_counter := state.program_counter + 1 } identity
    refine ⟨?_, b1⟩
    have := b7 (by show identity (state.stack state.stack_pointer) = 0; rw [hflag]; rfl)
    rw [this]
    show state.program_counter + 1 + 1 = _
    omega
  · intro hop hflag
    rw [step_eq, hop, execute_BRF isa h]
    obtain ⟨b1, -, -, -, -, -, b7⟩ := branch_on_condition_effect
      { state with program_counter := state.program_counter + 1 } negate_as_binary
    refine ⟨?_, b1⟩
    have := b7 (by
      show negate_as_binary (state.stack state.stack_pointer) = 0
      simp [negate_as_binary, hflag])
    rw [this]
    show state.program_counter + 1 + 1 = _
    omega
  · intro hop
    rw [step_eq, hop, execute_LOAD isa h]
    exact ⟨by show state.program_counter + 1 + 1 = _; omega, rfl⟩
  · intro hop
    rw [step_eq, hop, execute_PRINT isa h]
    exact ⟨rfl, rfl⟩
  · intro hop
    rw [step_eq, hop, execute_HALT isa h]
    exact ⟨rfl, rfl⟩
  · intro hop
    rw [step_eq, hop, execute_CALL isa h]
    obtain ⟨c1, -, -, -, -⟩ := save_state_registers
      { state with program_counter := state.program_counter + 1 }
    refine ⟨c1, ?_⟩
    show (save_state_and_jump_to_fn _).stack (save_state_and_jump_to_fn _).stack_pointer = _
    rw [c1, save_state_stack, if_pos rfl]
    show state.program_counter + 1 + 2 = _
    omega

/-- C14, at concrete states: `ICONST 9` at word 0 and `CALL 5 2` at word 0. -/
theorem arity_and_stack_effect_witness :
    ((step sample_set sample_iconst).2.program_counter = 0 + 2 ∧
     (step sample_set sample_iconst).2.stack_pointer = 1 + 1) ∧
    ((step sample_set sample_caller).2.stack_pointer = 1 + 3 ∧
     peek (step sample_set sample_caller).2 = 0 + 3) :=
  ⟨(arity_and_stack_effect sample_set (by decide) sample_iconst 0 rfl).1 rfl,
   (arity_and_stack_effect sample_set (by decide) sample_caller 0 rfl).2.2.2.2.2.2.2 rfl⟩

end Full

namespace Full

/-- The log line of `execute` on the opcode `PRINT` carries the value `peek`
returns. -/
theorem execute_log_PRINT (isa : instruction_set) (h : isa.distinct) (state : vm) :
    execute_log isa state isa.PRINT = [peek state] := by
  have n0 : ¬ (isa.PRINT = isa.ICONST) := labels_ne isa h 13 0 (by decide)
  have n1 : ¬ (isa.PRINT = isa.IADD) := labels_ne isa h 13 1 (by decide)
  have n2 : ¬ (isa.PRINT = isa.ISUB) := labels_ne isa h 13 2 (by decide)
  have n3 : ¬ (isa.PRINT = isa.IMUL) := labels_ne isa h 13 3 (by decide)
  have n4 : ¬ (isa.PRINT = isa.ILT) := labels_ne isa h 13 4 (by decide)
  have n5 : ¬ (isa.PRINT = isa.IGT) := labels_ne isa h 13 5 (by decide)
  have n6 : ¬ (isa.PRINT = isa.IEQ) := labels_ne isa h 13 6 (by decide)
  have n7 : ¬ (isa.PRINT = isa.INEQ) := labels_ne isa h 13 7 (by decide)
  have n8 : ¬ (isa.PRINT = isa.BRT) := labels_ne isa h 13 8 (by decide)
  have n9 : ¬ (isa.PRINT = isa.BRF) := labels_ne isa h 13 9 (by decide)
  have n10 : ¬ (isa.PRINT = isa.CALL) := labels_ne isa h 13 10 (by decide)
  have n11 : ¬ (isa.PRINT = isa.RET) := labels_ne isa h 13 11 (by decide)
  have n12 : ¬ (isa.PRINT = isa.LOAD) := labels_ne isa h 13 12 (by decide)
  unfold execute_log
  simp only [n0, n1, n2, n3, n4, n5, n6, n7, n8, n9, n10, n11, n12, if_false, if_true, eq_self_iff_true]

end Full

namespace Flat

/-- The log line of `execute` on the opcode `PRINT` carries the value `peek`
returns. -/
theorem flat_execute_log_PRINT (isa : instruction_set) (h : isa.distinct) (state : vm_state) :
    execute_log isa state isa.PRINT = [peek state] := by
  have n0 : ¬ (isa.PRINT = isa.ICONST) := flat_labels_ne isa h 12 0 (by decide)
  have n1 : ¬ (isa.PRINT = isa.IADD) := flat_labels_ne isa h 12 1 (by decide)
  have n2 : ¬ (isa.PRINT = isa.ISUB) := flat_labels_ne isa h 12 2 (by decide)
  have n3 : ¬ (isa.PRINT = isa.IMUL) := flat_labels_ne isa h 12 3 (by decide)
  have n4 : ¬ (isa.PRINT = isa.LT) := flat_labels_ne isa h 12 4 (by decide)
  have n5 : ¬ (isa.PRINT = isa.GT) := flat_labels_ne isa h 12 5 (by decide)
  have n6 : ¬ (isa.PRINT = isa.EQ) := flat_labels_ne isa h 12 6 (by decide)
  have n7 : ¬ (isa.PRINT = isa.NEQ) := flat_labels_ne isa h 12 7 (by decide)
  have n8 : ¬ (isa.PRINT = isa.BRT) := flat_labels_ne isa h 12 8 (by decide)
  have n9 : ¬ (isa.PRINT = isa.BRF) := flat_labels_ne isa h 12 9 (by decide)
  have n10 : ¬ (isa.PRINT = isa.CALL) := flat_labels_ne isa h 12 10 (by decide)
  have n11 : ¬ (isa.PRINT = isa.RET) := flat_labels_ne isa h 12 11 (by decide)
  unfold execute_log
  simp only [n0, n1, n2, n3, n4, n5, n6, n7, n8, n9, n10, n11, if_false, if_true, eq_self_iff_true]

end Flat

/-- C15: in both interpreters, one iteration at a word holding `PRINT`, with a
non-empty stack, returns success and changes nothing but `program_counter`,
which the fetch has advanced by one: stack, `stack_pointer`, `frame_pointer`
and `is_running` are as before; and the value the log line carries is the
top of the stack. -/
theorem print_no_mutation (isa : Full.instruction_set) (h : isa.distinct)
    (isb : Flat.instruction_set) (hb : isb.distinct) (state : Full.vm) (st : Flat.vm_state)
    (_hne : 0 ≤ state.stack_pointer)
    (hop : state.instructions state.program_counter = isa.PRINT)
    (_hne2 : 0 ≤ st.stack_pointer)
    (hop2 : st.instructions st.program_counter = isb.PRINT) :
    (Full.step isa state =
        (1, { state with program_counter := state.program_counter + 1 }) ∧
     Full.execute_log isa (Full.fetch state).2 (Full.decode (Full.fetch state).1) =
        [state.stack state.stack_pointer]) ∧
    (Flat.step isb st = (1, { st with program_counter := st.program_counter + 1 }) ∧
     Flat.execute_log isb (Flat.fetch st).2 (Flat.decode (Flat.fetch st).1) =
        [st.stack st.stack_pointer]) := by
  refine ⟨⟨?_, ?_⟩, ?_, ?_⟩
  · rw [Full.step_eq, hop, Full.execute_PRINT isa h]
  · show Full.execute_log isa _ (state.instructions state.program_counter) = _
    rw [hop, Full.execute_log_PRINT isa h]
    rfl
  · show Flat.execute isb { st with program_counter := st.program_counter + 1 }
      (st.instructions st.program_counter) = _
    rw [hop2, Flat.flat_execute_PRINT isb hb]
  · show Flat.execute_log isb _ (st.instructions st.program_counter) = _
    rw [hop2, Flat.flat_execute_log_PRINT isb hb]
    rfl

/-- C15, at concrete states: `PRINT` on the stack `[1, 2]` logs 2. -/
theorem print_no_mutation_witness :
    (Full.step Full.sample_set Full.sample_print).2.stack_pointer = 1 ∧
    Full.execute_log Full.sample_set (Full.fetch Full.sample_print).2
      (Full.decode (Full.fetch Full.sample_print).1) = [2] ∧
    (Flat.step Flat.sample_set Flat.sample_print).2.stack_pointer = 1 ∧
    Flat.execute_log Flat.sample_set (Flat.fetch Flat.sample_print).2
      (Flat.decode (Flat.fetch Flat.sample_print).1) = [2] :=
  have w := print_no_mutation Full.sample_set (by decide) Flat.sample_set (by decide)
    Full.sample_print Flat.sample_print (by decide) rfl (by decide) rfl
  ⟨by rw [w.1.1]; rfl, w.1.2, by rw [w.2.1]; rfl, w.2.2⟩

namespace Full

/-- C16: `execute` on `HALT` returns success and changes nothing but
`is_running`, which it sets to 0; and the loop, entered in a running state
whose next word is `HALT`, exits after that single iteration, whatever words
follow and however much fuel remains, with the state `HALT` left. -/
theorem halt_is_terminal (isa : instruction_set) (h : isa.distinct) (state : vm) :
    execute isa state isa.HALT = (1, { state with is_running := 0 }) ∧
    ∀ (size : Int) (fuel : Nat) (s : vm), s.is_running ≠ 0 → s.program_counter < size →
      s.instructions s.program_counter = isa.HALT →
      run_loop isa size (fuel + 1) 1 s =
        some ⟨1, 1, { s with program_counter := s.program_counter + 1, is_running := 0 }⟩ := by
  refine ⟨execute_HALT isa h state, ?_⟩
  intro size fuel s hr hlt hs
  have hc : loop_condition size 1 s := ⟨by decide, hr, hlt⟩
  have e : step isa s =
      (1, { s with program_counter := s.program_counter + 1, is_running := 0 }) := by
    rw [step_eq, hs, execute_HALT isa h]
  rw [run_loop_iter isa size fuel 1 s hc, e,
    run_loop_exit isa size fuel 1 _ (by simp [loop_condition])]
  rfl

/-- C16, at a concrete state: `HALT` at word 0 of `HALT; ICONST 5`. -/
theorem halt_is_terminal_witness :
    run_loop sample_set 3 (5 + 1) 1 sample_halt =
      some ⟨1, 1, { sample_halt with program_counter := 0 + 1, is_running := 0 }⟩ :=
  (halt_is_terminal sample_set (by decide) sample_halt).2 3 5 sample_halt
    (by decide) (by decide) rfl

end Full

namespace Full

/-- Where one iteration leaves `program_counter`, for a fetched word that is
neither `CALL` nor `RET`: one word further, or two words further after an
opcode with an operand word, or at the operand of a `BRT` or `BRF`. -/
theorem step_pc_cases (isa : instruction_set) (state : vm)
    (hcall : state.instructions state.program_counter ≠ isa.CALL)
    (hret : state.instructions state.program_counter ≠ isa.RET) :
    (step isa state).2.program_counter = state.program_counter + 1 ∨
    ((state.instructions state.program_counter = isa.ICONST ∨
      state.instructions state.program_counter = isa.LOAD ∨
      state.instructions state.program_counter = isa.BRT ∨
      state.instructions state.program_counter = isa.BRF) ∧
     (step isa state).2.program_counter = state.program_counter + 2) ∨
    ((state.instructions state.program_counter = isa.BRT ∨
      state.instructions state.program_counter = isa.BRF) ∧
     (step isa state).2.program_counter =
       state.instructions (state.program_counter + 1)) := by
  rw [step_eq]
  generalize hw : state.instructions state.program_counter = w at *
  have two : state.program_counter + 1 + 1 = state.program_counter + 2 := by omega
  have br : ∀ fn : Int → Int,
      (branch_on_condition { state with program_counter := state.program_counter + 1 }
        fn).program_counter = state.program_counter + 2 ∨
      (branch_on_condition { state with program_counter := state.program_counter + 1 }
        fn).program_counter = state.instructions (state.program_counter + 1) := by
    intro fn
    obtain ⟨-, -, -, -, -, b6, b7⟩ := branch_on_condition_effect
      { state with program_counter := state.program_counter + 1 } fn
    by_cases hf : fn (state.stack state.stack_pointer) = 0
    · left; rw [b7 hf]; exact two
    · right; exact b6 hf
  unfold execute
  by_cases h0 : w = isa.ICONST
  · rw [if_pos h0]; exact Or.inr (Or.inl ⟨Or.inl h0, two⟩)
  rw [if_neg h0]
  by_cases h1 : w = isa.IADD
  · rw [if_pos h1]; exact Or.inl (perform_binary_op_registers _ _).2.1
  rw [if_neg h1]
  by_cases h2 : w = isa.ISUB
  · rw [if_pos h2]; exact Or.inl (perform_binary_op_registers _ _).2.1
  rw [if_neg h2]
  by_cases h3 : w = isa.IMUL
  · rw [if_pos h3]; exact Or.inl (perform_binary_op_registers _ _).2.1
  rw [if_neg h3]
  by_cases h4 : w = isa.ILT
  · rw [if_pos h4]; exact Or.inl (perform_binary_op_registers _ _).2.1
  rw [if_neg h4]
  by_cases h5 : w = isa.IGT
  · rw [if_pos h5]; exact Or.inl (perform_binary_op_registers _ _).2.1
  rw [if_neg h5]
  by_cases h6 : w = isa.IEQ
  · rw [if_pos h6]; exact Or.inl (perform_binary_op_registers _ _).2.1
  rw [if_neg h6]
  by_cases h7 : w = isa.INEQ
  · rw [if_pos h7]; exact Or.inl (perform_binary_op_registers _ _).2.1
  rw [if_neg h7]
  by_cases h8 : w = isa.BRT
  · rw [if_pos h8]
    rcases br identity with e | e
    · exact Or.inr (Or.inl ⟨Or.inr (Or.inr (Or.inl h8)), e⟩)
    · exact Or.inr (Or.inr ⟨Or.inl h8, e⟩)
  rw [if_neg h8]
  by_cases h9 : w = isa.BRF
  · rw [if_pos h9]
    rcases br negate_as_binary with e | e
    · exact Or.inr (Or.inl ⟨Or.inr (Or.inr (Or.inr h9)), e⟩)
    · exact Or.inr (Or.inr ⟨Or.inr h9, e⟩)
  rw [if_neg h9, if_neg hcall, if_neg hret]
  by_cases h12 : w = isa.LOAD
  · rw [if_pos h12]; exact Or.inr (Or.inl ⟨Or.inr (Or.inl h12), two⟩)
  rw [if_neg h12]
  by_cases h13 : w = isa.PRINT
  · rw [if_pos h13]; exact Or.inl rfl
  rw [if_neg h13]
  by_cases h14 : w = isa.HALT
  · rw [if_pos h14]; exact Or.inl rfl
  rw [if_neg h14]
  exact Or.inl rfl

/-- The loop top after the `n`-th one is reached by one iteration from it,
when the loop goes on there. -/
theorem loop_top_succ (isa : instruction_set) (size : Int) (n : Nat) :
    ∀ (ok : Int) (state : vm),
      loop_top isa size (n + 1) ok state =
        if loop_condition size (loop_top isa size n ok state).1
            (loop_top isa size n ok state).2
        then step isa (loop_top isa size n ok state).2
        else loop_top isa size n ok state := by
  induction n with
  | zero => intro ok state; rfl
  | succ n ih =>
    intro ok state
    by_cases hc : loop_condition size ok state
    · have e1 : loop_top isa size (n + 1 + 1) ok state =
          loop_top isa size (n + 1) (step isa state).1 (step isa state).2 := by
        simp only [loop_top, hc, if_true]
      have e2 : loop_top isa size (n + 1) ok state =
          loop_top isa size n (step isa state).1 (step isa state).2 := by
        simp only [loop_top, hc, if_true]
      rw [e1, e2]
      exact ih _ _
    · have e1 : loop_top isa size (n + 1 + 1) ok state = (ok, state) := by
        simp only [loop_top, hc, if_false]
      have e2 : loop_top isa size (n + 1) ok state = (ok, state) := by
        simp only [loop_top, hc, if_false]
      rw [e1, e2, if_neg hc]

end Full

namespace Full

/-- Once the loop has exited, every later loop top is the exit pair. -/
theorem loop_top_stable (isa : instruction_set) (size : Int) (ok : Int) (state : vm)
    (k : Nat)
    (hexit : ¬ loop_condition size (loop_top isa size k ok state).1
      (loop_top isa size k ok state).2) :
    ∀ n, k ≤ n → loop_top isa size n ok state = loop_top isa size k ok state := by
  intro n hn
  induction n with
  | zero =>
    have : k = 0 := by omega
    rw [this]
  | succ n ih =>
    by_cases hk : k = n + 1
    · rw [hk]
    · have e := ih (by omega)
      rw [loop_top_succ, e, if_neg hexit]

/-- Where one iteration leaves `program_counter`, for every fetched word:
one word further, or two words further after an opcode with one operand
word, or at the operand of a `BRT`, `BRF` or `CALL`, or at the return address
`stack[frame_pointer]` popped by a `RET`. -/
theorem step_pc_all (isa : instruction_set) (state : vm) :
    (step isa state).2.program_counter = state.program_counter + 1 ∨
    ((state.instructions state.program_counter = isa.ICONST ∨
      state.instructions state.program_counter = isa.LOAD ∨
      state.instructions state.program_counter = isa.BRT ∨
      state.instructions state.program_counter = isa.BRF) ∧
     (step isa state).2.program_counter = state.program_counter + 2) ∨
    ((state.instructions state.program_counter = isa.BRT ∨
      state.instructions state.program_counter = isa.BRF ∨
      state.instructions state.program_counter = isa.CALL) ∧
     (step isa state).2.program_counter =
       state.instructions (state.program_counter + 1)) ∨
    (state.instructions state.program_counter = isa.RET ∧
     (step isa state).2.program_counter = state.stack state.frame_pointer) := by
  rw [step_eq]
  generalize state.instructions state.program_counter = w
  have two : state.program_counter + 1 + 1 = state.program_counter + 2 := by omega
  have br : ∀ fn : Int → Int,
      (branch_on_condition { state with program_counter := state.program_counter + 1 }
        fn).program_counter = state.program_counter + 2 ∨
      (branch_on_condition { state with program_counter := state.program_counter + 1 }
        fn).program_counter = state.instructions (state.program_counter + 1) := by
    intro fn
    obtain ⟨-, -, -, -, -, b6, b7⟩ := branch_on_condition_effect
      { state with program_counter := state.program_counter + 1 } fn
    by_cases hf : fn (state.stack state.stack_pointer) = 0
    · left; rw [b7 hf]; exact two
    · right; exact b6 hf
  unfold execute
  by_cases h0 : w = isa.ICONST
  · rw [if_pos h0]; exact Or.inr (Or.inl ⟨Or.inl h0, two⟩)
  rw [if_neg h0]
  by_cases h1 : w = isa.IADD
  · rw [if_pos h1]; exact Or.inl (perform_binary_op_registers _ _).2.1
  rw [if_neg h1]
  by_cases h2 : w = isa.ISUB
  · rw [if_pos h2]; exact Or.inl (perform_binary_op_registers _ _).2.1
  rw [if_neg h2]
  by_cases h3 : w = isa.IMUL
  · rw [if_pos h3]; exact Or.inl (perform_binary_op_registers _ _).2.1
  rw [if_neg h3]
  by_cases h4 : w = isa.ILT
  · rw [if_pos h4]; exact Or.inl (perform_binary_op_registers _ _).2.1
  rw [if_neg h4]
  by_cases h5 : w = isa.IGT
  · rw [if_pos h5]; exact Or.inl (perform_binary_op_registers _ _).2.1
  rw [if_neg h5]
  by_cases h6 : w = isa.IEQ
  · rw [if_pos h6]; exact Or.inl (perform_binary_op_registers _ _).2.1
  rw [if_neg h6]
  by_cases h7 : w = isa.INEQ
  · rw [if_pos h7]; exact Or.inl (perform_binary_op_registers _ _).2.1
  rw [if_neg h7]
  by_cases h8 : w = isa.BRT
  · rw [if_pos h8]
    rcases br identity with e | e
    · exact Or.inr (Or.inl ⟨Or.inr (Or.inr (Or.inl h8)), e⟩)
    · exact Or.inr (Or.inr (Or.inl ⟨Or.inl h8, e⟩))
  rw [if_neg h8]
  by_cases h9 : w = isa.BRF
  · rw [if_pos h9]
    rcases br negate_as_binary with e | e
    · exact Or.inr (Or.inl ⟨Or.inr (Or.inr (Or.inr h9)), e⟩)
    · exact Or.inr (Or.inr (Or.inl ⟨Or.inr (Or.inl h9), e⟩))
  rw [if_neg h9]
  by_cases h10 : w = isa.CALL
  · rw [if_pos h10]
    exact Or.inr (Or.inr (Or.inl ⟨Or.inr (Or.inr h10),
      (save_state_registers
        { state with program_counter := state.program_counter + 1 }).2.2.1⟩))
  rw [if_neg h10]
  by_cases h11 : w = isa.RET
  · rw [if_pos h11]
    exact Or.inr (Or.inr (Or.inr ⟨h11,
      (return_registers
        { state with program_counter := state.program_counter + 1 }).2.2.1⟩))
  rw [if_neg h11]
  by_cases h12 : w = isa.LOAD
  · rw [if_pos h12]; exact Or.inr (Or.inl ⟨Or.inr (Or.inl h12), two⟩)
  rw [if_neg h12]
  by_cases h13 : w = isa.PRINT
  · rw [if_pos h13]; exact Or.inl rfl
  rw [if_neg h13]
  by_cases h14 : w = isa.HALT
  · rw [if_pos h14]; exact Or.inl rfl
  rw [if_neg h14]
  exact Or.inl rfl

end Full

namespace Full

/-- The straight-line condition moves along with the loop: when the loop goes
on, what holds at top `n + 1` of a run holds at top `n` of the run started
after one iteration. -/
theorem straight_at_shift (isa : instruction_set) (size : Int) (ok : Int) (state : vm)
    (hc : loop_condition size ok state) (n : Nat)
    (hs : straight_at isa size ok state (n + 1)) :
    straight_at isa size (step isa state).1 (step isa state).2 n := by
  unfold straight_at at hs ⊢
  have e : loop_top isa size (n + 1) ok state =
      loop_top isa size n (step isa state).1 (step isa state).2 := by
    simp only [loop_top, hc, if_true]
  rw [e] at hs
  exact hs

/-- One iteration at a word that is none of `BRT`, `BRF`, `CALL`, `RET` moves
`program_counter` forward, by one or two words. -/
theorem step_pc_straight (isa : instruction_set) (state : vm)
    (hw : state.instructions state.program_counter ∉ [isa.BRT, isa.BRF, isa.CALL, isa.RET]) :
    (step isa state).2.program_counter = state.program_counter + 1 ∨
    (step isa state).2.program_counter = state.program_counter + 2 := by
  simp only [List.mem_cons, List.mem_singleton, List.not_mem_nil, or_false, not_or] at hw
  rcases step_pc_cases isa state hw.2.2.1 hw.2.2.2 with e | ⟨-, e⟩ | ⟨hb, -⟩
  · exact Or.inl e
  · exact Or.inr e
  · rcases hb with hb | hb
    · exact absurd hb hw.1
    · exact absurd hb hw.2.1

/-- A straight-line run exits within as many iterations as there are words
from `program_counter` to the end of the stream. -/
theorem run_loop_straight (isa : instruction_set) (size : Int) (fuel : Nat) :
    ∀ (ok : Int) (state : vm), (∀ n, straight_at isa size ok state n) →
      (size - state.program_counter).toNat ≤ fuel →
      ∃ r, run_loop isa size fuel ok state = some r ∧
        r.steps ≤ (size - state.program_counter).toNat := by
  induction fuel with
  | zero =>
    intro ok state _ hfuel
    refine ⟨_, run_loop_exit isa size 0 ok state ?_, Nat.zero_le _⟩
    intro hc
    have := hc.2.2
    omega
  | succ fuel ih =>
    intro ok state hs hfuel
    by_cases hc : loop_condition size ok state
    · have hlt := hc.2.2
      have hw := hs 0 hc
      have hpc := step_pc_straight isa state hw
      have hfuel2 : (size - (step isa state).2.program_counter).toNat ≤ fuel := by
        rcases hpc with e | e <;> rw [e] <;> omega
      obtain ⟨r, hr, hsteps⟩ := ih (step isa state).1 (step isa state).2
        (fun n => straight_at_shift isa size ok state hc n (hs (n + 1))) hfuel2
      refine ⟨{ r with steps := r.steps + 1 }, ?_, ?_⟩
      · rw [run_loop_iter isa size fuel ok state hc, hr]
        rfl
      · show r.steps + 1 ≤ _
        rcases hpc with e | e <;> rw [e] at hsteps <;> omega
    · exact ⟨_, run_loop_exit isa size (fuel + 1) ok state hc, Nat.zero_le _⟩

/-- The loop on `ICONST 1; BRT 0` entered at word 0 with an empty stack never
exits: whatever the fuel, it is used up with the loop condition true. -/
theorem run_loop_forever (isa : instruction_set) (h : isa.distinct)
    (instructions : Int → Int) (hload : loaded instructions [isa.ICONST, 1, isa.BRT, 0])
    (fuel : Nat) :
    ∀ stack : Int → Int,
      run_loop isa 4 fuel 1 (initial_state instructions 0 stack) = none := by
  have i0 : instructions 0 = isa.ICONST := by simpa using hload 0 (by simp)
  have i1 : instructions 1 = 1 := by simpa using hload 1 (by simp)
  have i2 : instructions 2 = isa.BRT := by simpa using hload 2 (by simp)
  have i3 : instructions 3 = 0 := by simpa using hload 3 (by simp)
  have eI := execute_ICONST isa
  have eB := execute_BRT isa h
  induction fuel using Nat.strong_induction_on with
  | _ fuel ih =>
    intro stack
    match fuel, ih with
    | 0, _ => simp [run_loop, loop_condition, initial_state]
    | 1, _ =>
      simp [run_loop, loop_condition, initial_state, step, fetch, decode, i0, i1, eI,
        load_const, push]
    | k + 2, ih =>
      have hk := ih k (by omega) (fun i => if i = 0 then 1 else stack i)
      simp [run_loop, loop_condition, initial_state, step, fetch, decode, i0, i1, i2, i3, eI,
        eB, load_const, branch_on_condition, push, pop, identity]
      simp only [initial_state] at hk
      simpa using hk

end Full

namespace Full

/-- C20: for an entry point `e` in `0 .. L` and a run whose fetched words are
never `BRT`, `BRF`, `CALL` or `RET`, every iteration moves
`program_counter` strictly forward, and the loop exits after at most `L - e`
iterations (any fuel of at least `L - e` gives the outcome); whereas the loop
on the stream `ICONST 1; BRT 0` never exits, whatever the fuel. -/
theorem straight_line_terminates (isa : instruction_set) (h : isa.distinct)
    (instructions : Int → Int) (L entry_point stack_size : Int) (stack : Int → Int)
    (_hentry : 0 ≤ entry_point ∧ entry_point ≤ L)
    (hstraight : ∀ n, straight_at isa L 1 (initial_state instructions entry_point stack) n)
    (looping : Int → Int) (hloop : loaded looping [isa.ICONST, 1, isa.BRT, 0]) :
    (∀ n, loop_condition L
        (loop_top isa L n 1 (initial_state instructions entry_point stack)).1
        (loop_top isa L n 1 (initial_state instructions entry_point stack)).2 →
      (loop_top isa L n 1 (initial_state instructions entry_point stack)).2.program_counter <
        (loop_top isa L (n + 1) 1
          (initial_state instructions entry_point stack)).2.program_counter) ∧
    (∀ fuel, (L - entry_point).toNat ≤ fuel →
      ∃ r, run isa fuel instructions L entry_point stack_size stack = some r ∧
        r.steps ≤ (L - entry_point).toNat) ∧
    (∀ (fuel : Nat) (stack_size2 : Int) (stack2 : Int → Int),
      run isa fuel looping 4 0 stack_size2 stack2 = none) := by
  refine ⟨?_, ?_, ?_⟩
  · intro n hc
    rw [loop_top_succ, if_pos hc]
    rcases step_pc_straight isa _ (hstraight n hc) with e | e <;> rw [e] <;> omega
  · intro fuel hfuel
    exact run_loop_straight isa L fuel 1 _ hstraight hfuel
  · intro fuel stack_size2 stack2
    exact run_loop_forever isa h looping hloop fuel stack2

/-- C20, on the sample opcode numbering: the straight-line stream `ICONST 9;
HALT` entered at 0 exits within 3 iterations, and `ICONST 1; BRT 0` uses up a
fuel of 1000. -/
theorem straight_line_terminates_witness :
    (∃ r, run sample_set 3 (of_words [101, 9, 115]) 3 0 2 (fun _ => 0) = some r ∧
      r.steps ≤ (3 - 0 : Int).toNat) ∧
    run sample_set 1000 (of_words [101, 1, 109, 0]) 4 0 2 (fun _ => 0) = none :=
  have w := straight_line_terminates sample_set (by decide) (of_words [101, 9, 115]) 3 0 2
    (fun _ => 0) (by decide)
    (by
      intro n
      by_cases hn : n < 2
      · interval_cases n <;> decide
      · unfold straight_at
        rw [loop_top_stable sample_set 3 1 _ 2 (by decide) n (by omega)]
        decide)
    (of_words [101, 1, 109, 0])
    (by intro i hi
        have hi' : i < 4 := hi
        interval_cases i <;> rfl)
  ⟨w.2.1 3 (by decide), w.2.2 1000 2 (fun _ => 0)⟩

end Full

namespace Full

/-- C18: the caller's stack is what pushing `args` (the last one on top) on
`base` gives, and it executes `CALL target n` at word `p` with
`n = args.length`. Then for every state `callee` in the frame of that call
(its `frame_pointer` is the one `CALL` set, the slots up to it are as `CALL`
left them) that executes `LOAD k`: with `k = j + 1 - n - 3` for `j < n` the
value pushed is the argument of index `j` (counted from 0), and that offset
is at most -3; with `k = 0`, `-1`, `-2` the value pushed is the saved
`program_counter` `p + 3`, the saved `frame_pointer`, and `n`. -/
theorem argument_addressing (isa : instruction_set) (h : isa.distinct)
    (base state callee : vm) (args : List Int) (p target k : Int)
    (hstack : state.stack = (push_all base args).stack)
    (hsp : state.stack_pointer = (push_all base args).stack_pointer)
    (hpc : state.program_counter = p)
    (hop : state.instructions p = isa.CALL)
    (_htarget : state.instructions (p + 1) = target)
    (hn : state.instructions (p + 2) = args.length)
    (hfp : callee.frame_pointer = (step isa state).2.frame_pointer)
    (hframe : ∀ i, i ≤ callee.frame_pointer → callee.stack i = (step isa state).2.stack i)
    (hload : callee.instructions callee.program_counter = isa.LOAD)
    (hk : callee.instructions (callee.program_counter + 1) = k) :
    (∀ j : Nat, j < args.length → k = (j : Int) + 1 - args.length - 3 →
      peek (step isa callee).2 = args.getD j 0 ∧ k ≤ -3) ∧
    (k = 0 → peek (step isa callee).2 = p + 3) ∧
    (k = -1 → peek (step isa callee).2 = state.frame_pointer) ∧
    (k = -2 → peek (step isa callee).2 = args.length) := by
  subst hpc
  have e1 := step_CALL isa h state hop
  rw [e1] at hfp hframe
  obtain ⟨-, c2, -, -, -⟩ := save_state_registers (fetch state).2
  have hfp2 : callee.frame_pointer = state.stack_pointer + 3 := hfp.trans c2
  have hst : ∀ i, i ≤ state.stack_pointer + 3 → callee.stack i =
      if i = state.stack_pointer + 3 then state.program_counter + 3
      else if i = state.stack_pointer + 2 then state.frame_pointer
      else if i = state.stack_pointer + 1 then (args.length : Int)
      else state.stack i := by
    intro i hi
    rw [hframe i (by omega)]
    show (save_state_and_jump_to_fn (fetch state).2).stack i = _
    rw [save_state_stack]
    show (if i = state.stack_pointer + 3 then state.program_counter + 1 + 2
      else if i = state.stack_pointer + 2 then state.frame_pointer
      else if i = state.stack_pointer + 1 then
        state.instructions (state.program_counter + 1 + 1)
      else state.stack i) = _
    rw [show state.program_counter + 1 + 2 = state.program_counter + 3 by omega,
      show state.program_counter + 1 + 1 = state.program_counter + 2 by omega, hn]
  have hpeek : peek (step isa callee).2 = callee.stack (callee.frame_pointer + k) := by
    rw [step_eq, hload, execute_LOAD isa h]
    obtain ⟨l1, -, -, -, -, l6⟩ := load_rel_effect
      { callee with program_counter := callee.program_counter + 1 }
    show (load_const_rel_to_frame _).stack (load_const_rel_to_frame _).stack_pointer = _
    rw [l1, l6, if_pos rfl]
    show callee.stack (callee.frame_pointer + callee.instructions (callee.program_counter + 1))
      = _
    rw [hk]
  obtain ⟨hlen, -⟩ := push_all_below args base
  rw [hpeek, hfp2]
  refine ⟨?_, ?_, ?_, ?_⟩
  · intro j hj hkj
    refine ⟨?_, by omega⟩
    rw [hst _ (by omega), if_neg (by omega), if_neg (by omega), if_neg (by omega), hstack]
    have idx : state.stack_pointer + 3 + k = base.stack_pointer + 1 + (j : Int) := by
      rw [hsp, hlen]; omega
    rw [idx]
    exact push_all_slot args base j hj
  · intro h0
    rw [hst _ (by omega), if_pos (by omega)]
  · intro h1
    rw [hst _ (by omega), if_neg (by omega), if_pos (by omega)]
  · intro h2
    rw [hst _ (by omega), if_neg (by omega), if_neg (by omega), if_pos (by omega)]

/-- C18, at a concrete call with the arguments 10 and 20: `LOAD -4` pushes
10, `LOAD -3` pushes 20, `LOAD 0` pushes the resume address 3. -/
theorem argument_addressing_witness :
    peek (step sample_set (step sample_set (sample_call_args (-4))).2).2 = 10 ∧
    peek (step sample_set (step sample_set (sample_call_args (-3))).2).2 = 20 ∧
    peek (step sample_set (step sample_set (sample_call_args 0)).2).2 = 0 + 3 :=
  ⟨((argument_addressing sample_set (by decide)
      (initial_state (of_words [111, 3, 2, 113, -4, 112]) 0 (fun _ => 0))
      (sample_call_args (-4)) (step sample_set (sample_call_args (-4))).2 [10, 20] 0 3 (-4)
      rfl rfl rfl rfl rfl rfl rfl (fun _ _ => rfl) rfl rfl).1 0 (by decide) (by decide)).1,
   ((argument_addressing sample_set (by decide)
      (initial_state (of_words [111, 3, 2, 113, -3, 112]) 0 (fun _ => 0))
      (sample_call_args (-3)) (step sample_set (sample_call_args (-3))).2 [10, 20] 0 3 (-3)
      rfl rfl rfl rfl rfl rfl rfl (fun _ _ => rfl) rfl rfl).1 1 (by decide) (by decide)).1,
   (argument_addressing sample_set (by decide)
      (initial_state (of_words [111, 3, 2, 113, 0, 112]) 0 (fun _ => 0))
      (sample_call_args 0) (step sample_set (sample_call_args 0)).2 [10, 20] 0 3 0
      rfl rfl rfl rfl rfl rfl rfl (fun _ _ => rfl) rfl rfl).2.1 rfl⟩

end Full

/-- C19: on the stream `ICONST 5; ICONST 3; ISUB; HALT`, entered at 0 with the
same opcode numbering, both interpreters stop after four iterations, Halted,
with one value on the stack; `src/src/vsvm.c` leaves `[-2]` and `src/vsvm.c`
leaves `[2]`. -/
theorem variants_disagree_on_isub :
    (Full.run Full.sample_set 4 (of_words [101, 5, 101, 3, 103, 115]) 6 0 2 (fun _ => 0)).map
      Full.outcome.observe = some (4, 1, 0, 6, 0, [-2]) ∧
    (Flat.run Flat.sample_set 4 (of_words [101, 5, 101, 3, 103, 115]) 6 0 (fun _ => 0)).map
      Flat.outcome.observe = some (4, 1, 0, 6, 0, [2]) := by
  refine ⟨rfl, rfl⟩
